import Mathlib

/-!
# Verification development for `source/main.c` (weather client)

A shallow embedding of the C program: the response buffer fed by the
transport's write callback (`write_response`), the blocking fetch
(`request`), the geolocation lookup (`get_location`) and the weather
report (`main`).

Conventions of the embedding

* `size_t` is the 64-bit unsigned type: values are natural numbers and every
  `size_t` operation of the source is written with an explicit reduction
  modulo `SIZE_MAX + 1`.
* A heap block carries its address, its allocated length and its contents.
  Any access outside the allocated length, a null pointer handed to a
  function that reads through it, and a failed `assert` have no defined
  result in C: the embedding returns `Run.fault`.
* The allocator, the transport (libcurl), the JSON library (jansson) and the
  floating-point formatting and scanning of libc are the environment. Their
  answers are explicit arguments, so a theorem quantified over them holds for
  every behaviour of the environment.
-/

namespace Weather

/-! ## Machine arithmetic -/

/-- The largest value of `size_t` (64-bit). -/
def SIZE_MAX : Nat := 18446744073709551615

/-- Reduction of an unbounded result to `size_t`. -/
def to_size_t (n : Nat) : Nat := n % (SIZE_MAX + 1)

/-- Multiplication of two `size_t` values. -/
def mul_size_t (a b : Nat) : Nat := to_size_t (a * b)

/-- Addition of two `size_t` values. -/
def add_size_t (a b : Nat) : Nat := to_size_t (a + b)

/-- Subtraction of two `size_t` values (wraps below zero). -/
def sub_size_t (a b : Nat) : Nat :=
  to_size_t (to_size_t a + (SIZE_MAX + 1) - to_size_t b)

/-! ## Results of running C code -/

/-- The ways a run can leave defined behaviour. -/
inductive Fault where
  | assert_failed
  | null_pointer
  | out_of_bounds
  | no_termination
  deriving DecidableEq, Repr

/-- Outcome of running a piece of the program. -/
inductive Run (α : Type) where
  | ok (a : α)
  | fault (f : Fault)
  deriving DecidableEq, Repr

/-! ## Heap blocks and the allocator -/

/-- One byte of memory (`char`). -/
abbrev Byte := UInt8

/-- An allocated heap block: where it lives, how many bytes were allocated
and what they hold. -/
structure Block where
  addr : Nat
  alloc : Nat
  data : Nat → Byte

/-- A successful answer of the allocator: the address of the block and the
(indeterminate) bytes of the part that is not carried over. -/
structure Fresh where
  addr : Nat
  fresh : Nat → Byte

/-- The answer of the allocator to one request: `none` is a null pointer. -/
abbrev Alloc := Option Fresh

/-- C `malloc(n)` under the allocator answer `a`. -/
def malloc (n : Nat) (a : Alloc) : Option Block :=
  match a with
  | none => none
  | some f => some { addr := f.addr, alloc := n, data := f.fresh }

/-- C `realloc(p, n)` under the allocator answer `a`: on success the bytes
below the smaller of the two lengths are carried over; on failure the result
is null and the old block is untouched. `realloc(NULL, n)` is `malloc(n)`. -/
def realloc (p : Option Block) (n : Nat) (a : Alloc) : Option Block :=
  match a with
  | none => none
  | some f =>
    match p with
    | none => some { addr := f.addr, alloc := n, data := f.fresh }
    | some b =>
      some { addr := f.addr, alloc := n,
             data := fun i => if i < min b.alloc n then b.data i else f.fresh i }

/-- C `memcpy(dest + off, src, n)` into the block `dest`: defined only when
the destination is a block with `off + n` bytes allocated and the source has
`n` bytes. -/
def memcpy (dest : Option Block) (off : Nat) (src : List Byte) (n : Nat) : Run Block :=
  match dest with
  | none => Run.fault Fault.null_pointer
  | some b =>
    if off + n ≤ b.alloc ∧ n ≤ src.length then
      Run.ok { b with data := fun i => if off ≤ i ∧ i < off + n then src.getD (i - off) 0 else b.data i }
    else Run.fault Fault.out_of_bounds

/-! ## Diagnostics -/

/-- The value of `__FILE__` (the path the file is compiled under). -/
def FILE : String := "source/main.c"

/-- The common shape of every diagnostic of the program:
`"error: %s:%d: %s: " ... "\n"` with `__FILE__`, `__LINE__`, `__func__`. -/
def diag (line : String) (func : String) (msg : String) : String :=
  "error: " ++ FILE ++ ":" ++ line ++ ": " ++ func ++ ": " ++ msg ++ "\n"

/-! ## The response buffer and the write callback -/

/-- Initial capacity of a response buffer. -/
def RESPONSE_INITIAL_CAPACITY : Nat := 1024

/-- The source's `struct response`. -/
structure response where
  buffer : Option Block
  size : Nat
  capacity : Nat

/-- What one call of `write_response` leaves behind: the returned count, the
response object and the text written to the error stream. -/
structure Written where
  ret : Nat
  response : response
  err : List String

/-- The integrity check of `write_response` (line 23), `true` when the chunk
is rejected. The right operand of `||` is only evaluated when the left one is
false. -/
def overflows (size nmemb : Nat) (r : response) : Bool :=
  decide (nmemb ≥ SIZE_MAX / size) || decide (r.size ≥ sub_size_t SIZE_MAX (mul_size_t size nmemb))

/-- One execution of the body of the `do ... while` loop (lines 38-44). -/
def next_capacity (capacity : Nat) : Nat :=
  if capacity = 0 then 1
  else if capacity > SIZE_MAX / 2 then SIZE_MAX
  else mul_size_t capacity 2

/-- The `do ... while` loop of lines 37-45; `need` is the value of
`response->size + nmemb * size`. The loop runs its body, then repeats while
`need >= capacity`. `none` when the iterations allowed by `fuel` are used up. -/
def grow_capacity : Nat → Nat → Nat → Option Nat
  | 0, _, _ => none
  | fuel + 1, need, capacity =>
    let capacity := next_capacity capacity
    if need ≥ capacity then grow_capacity fuel need capacity else some capacity

/-- Iterations granted to the doubling loop: from any capacity the sequence
reaches `SIZE_MAX` within 65 steps (0, 1, 2, 4, ..., 2^63, SIZE_MAX). -/
def GROW_FUEL : Nat := 66

/-- Lines 65-68 of `write_response`: copy the `n` bytes of the chunk behind
the bytes already stored, advance `size`, return `n`. -/
def store_chunk (ptr : List Byte) (n : Nat) (r : response) : Run Written :=
  match memcpy r.buffer r.size ptr n with
  | Run.fault f => Run.fault f
  | Run.ok b => Run.ok ⟨n, { r with buffer := some b, size := add_size_t r.size n }, []⟩

/-- The source's `write_response(ptr, size, nmemb, userdata)`; `heap` is the
allocator's answer to the `realloc` of line 47, should the call reach it. -/
def write_response (ptr : List Byte) (size nmemb : Nat) (userdata : response)
    (heap : Alloc) : Run Written :=
  if size = 0 then Run.fault Fault.assert_failed
  else if overflows size nmemb userdata then
    Run.ok ⟨0, userdata, [diag "28" "write_response" "buffer capacity overflowed"]⟩
  else if add_size_t userdata.size (mul_size_t nmemb size) ≥ userdata.capacity then
    match grow_capacity GROW_FUEL (add_size_t userdata.size (mul_size_t nmemb size))
        userdata.capacity with
    | none => Run.fault Fault.no_termination
    | some capacity =>
      match realloc userdata.buffer capacity heap with
      | none =>
        Run.ok ⟨0, userdata,
          [diag "53" "write_response"
            ("failed to reallocate buffer capacity to " ++ toString capacity)]⟩
      | some buffer =>
        store_chunk ptr (mul_size_t nmemb size)
          { userdata with buffer := some buffer, capacity := capacity }
  else store_chunk ptr (mul_size_t nmemb size) userdata

/-! ## The transport and `request` -/

/-- One call of the write callback by the transport: the chunk, the two
counts it is announced with, and the allocator's answer for that call. -/
structure Delivery where
  ptr : List Byte
  size : Nat
  nmemb : Nat
  heap : Alloc

/-- libcurl's `CURLE_OK`. -/
def CURLE_OK : Nat := 0

/-- libcurl's `CURLE_WRITE_ERROR`. -/
def CURLE_WRITE_ERROR : Nat := 23

/-- What `curl_easy_perform` leaves behind: its result code, the response
object the callback worked on, and the callback's error output. -/
structure Transfer where
  status : Nat
  response : response
  err : List String

/-- The transport's `curl_easy_perform`, as libcurl documents it: the chunks
are handed to the write callback in order; a callback that returns a count
different from the one it was given aborts the transfer with
`CURLE_WRITE_ERROR`; otherwise the result is the transfer's own code
`final`. -/
def curl_easy_perform : List Delivery → Nat → response → Run Transfer
  | [], final, r => Run.ok ⟨final, r, []⟩
  | d :: ds, final, r =>
    match write_response d.ptr d.size d.nmemb r d.heap with
    | Run.fault f => Run.fault f
    | Run.ok w =>
      if w.ret ≠ d.size * d.nmemb then Run.ok ⟨CURLE_WRITE_ERROR, w.response, w.err⟩
      else
        match curl_easy_perform ds final w.response with
        | Run.fault f => Run.fault f
        | Run.ok t => Run.ok ⟨t.status, t.response, w.err ++ t.err⟩

/-- Everything the outside world decides during one `request`. -/
structure Transport where
  /-- Whether `curl_easy_init` returned a handle. -/
  init : Bool
  /-- The allocator's answer to `malloc(RESPONSE_INITIAL_CAPACITY)`. -/
  buffer : Alloc
  /-- The chunks the transfer delivers. -/
  deliveries : List Delivery
  /-- The result code of the transfer when no chunk is refused. -/
  result : Nat
  /-- The text of `curl_easy_strerror`. -/
  strerror : Nat → String
  /-- The value of `CURLINFO_RESPONSE_CODE`. -/
  code : Int
  /-- The allocator's answer to the `realloc` of line 144. -/
  shrink : Alloc

/-- HTTP status the source accepts. -/
def RESPONSE_CODE_OK : Int := 200

/-- What `request` leaves behind: the returned pointer (`none` is `NULL`),
the addresses of the blocks it passed to `free`, and its error output. -/
structure Fetched where
  ret : Option Block
  freed : List Nat
  err : List String

/-- C `free(p)`: the address released (`free(NULL)` releases nothing). -/
def free (p : Option Block) : List Nat :=
  match p with
  | none => []
  | some b => [b.addr]

/-- C `p[i] = c` on the block `p`. -/
def store_byte (p : Option Block) (i : Nat) (c : Byte) : Run Block :=
  match p with
  | none => Run.fault Fault.null_pointer
  | some b =>
    if i < b.alloc then Run.ok { b with data := fun j => if j = i then c else b.data j }
    else Run.fault Fault.out_of_bounds

/-- Lines 87-102 of `request`: the response object around the freshly
allocated block `b`. -/
def initial_response (b : Block) : response :=
  { buffer := some b, capacity := RESPONSE_INITIAL_CAPACITY, size := 0 }

/-- The source's `request(url)` under the environment `t`. -/
def request (url : String) (t : Transport) : Run Fetched :=
  if !t.init then
    Run.ok ⟨none, [], [diag "80" "request" "failed to initialize libcurl"]⟩
  else
    match malloc RESPONSE_INITIAL_CAPACITY t.buffer with
    | none =>
      Run.ok ⟨none, free none,
        [diag "94" "request"
          ("failed to allocate initial buffer capacity " ++ toString RESPONSE_INITIAL_CAPACITY)]⟩
    | some b =>
      match curl_easy_perform t.deliveries t.result (initial_response b) with
      | Run.fault f => Run.fault f
      | Run.ok tr =>
        if tr.status ≠ CURLE_OK then
          Run.ok ⟨none, free tr.response.buffer,
            tr.err ++ [diag "114" "request"
              ("failed to get data from " ++ url ++ ": " ++ t.strerror tr.status)]⟩
        else if t.code ≠ RESPONSE_CODE_OK then
          Run.ok ⟨none, free tr.response.buffer,
            tr.err ++ [diag "133" "request"
              ("server responded with code " ++ toString t.code)]⟩
        else
          let buffer := realloc tr.response.buffer (add_size_t tr.response.size 1) t.shrink
          let kept := match buffer with
            | some b => some b
            | none => tr.response.buffer
          match store_byte kept tr.response.size 0 with
          | Run.fault f => Run.fault f
          | Run.ok b => Run.ok ⟨some b, [], tr.err⟩

/-- The bytes of the C string that starts at index `i` of `data`, reading at
most `k` bytes: everything before the first zero byte, `none` when no zero
byte is met. -/
def c_string_from (data : Nat → Byte) : Nat → Nat → Option (List Byte)
  | 0, _ => none
  | k + 1, i =>
    if data i = 0 then some []
    else
      match c_string_from data k (i + 1) with
      | none => none
      | some rest => some (data i :: rest)

/-- Reading a block as a C string: defined when a zero byte is met inside
the allocated length. -/
def c_string (b : Block) : Run (List Byte) :=
  match c_string_from b.data b.alloc 0 with
  | none => Run.fault Fault.out_of_bounds
  | some text => Run.ok text

/-! ## JSON values and the accessors of the JSON library -/

/-- A C `double`, kept as its bit pattern: the program only moves such values
around, formats them and scans them, all of which is left to libc. -/
structure Double where
  bits : Nat
  deriving DecidableEq, Repr

/-- The value `0.0` (all bits clear). -/
def Double.zero : Double := ⟨0⟩

/-- A parsed JSON value (`json_t`), with the eight types of the library. -/
inductive Json where
  | object (members : List (String × Json))
  | array (items : List Json)
  | string (value : String)
  | integer (value : Int)
  | real (value : Double)
  | jtrue
  | jfalse
  | null

/-- The library's `json_error_t`. -/
structure json_error_t where
  line : Int
  column : Int
  text : String

/-- The library's `json_object_get`: the value stored under `key`, `NULL`
when `json` is not an object or has no such key. -/
def json_object_get (json : Option Json) (key : String) : Option Json :=
  match json with
  | some (Json.object members) => members.lookup key
  | _ => none

/-- The library's `json_array_get`: the element at `index`, `NULL` when
`json` is not an array or the index is out of range. -/
def json_array_get (json : Option Json) (index : Nat) : Option Json :=
  match json with
  | some (Json.array items) => items.get? index
  | _ => none

/-- The library's `json_is_object` (false for `NULL`). -/
def json_is_object (json : Option Json) : Bool :=
  match json with
  | some (Json.object _) => true
  | _ => false

/-- The library's `json_is_string` (false for `NULL`). -/
def json_is_string (json : Option Json) : Bool :=
  match json with
  | some (Json.string _) => true
  | _ => false

/-- The library's `json_is_integer` (false for `NULL`). -/
def json_is_integer (json : Option Json) : Bool :=
  match json with
  | some (Json.integer _) => true
  | _ => false

/-- The library's `json_is_number`: an integer or a real. -/
def json_is_number (json : Option Json) : Bool :=
  match json with
  | some (Json.integer _) => true
  | some (Json.real _) => true
  | _ => false

/-- The library's `json_string_value`: `NULL` unless `json` is a string. -/
def json_string_value (json : Option Json) : Option String :=
  match json with
  | some (Json.string value) => some value
  | _ => none

/-- The library's `json_integer_value`: 0 unless `json` is an integer. -/
def json_integer_value (json : Option Json) : Int :=
  match json with
  | some (Json.integer value) => value
  | _ => 0

/-! ## libc and the rest of the environment -/

/-- The floating-point services of libc the program relies on. -/
structure Libc where
  /-- The text `printf` produces for a `double` under `%lg` (and `%g`). -/
  fmt_lg : Double → String
  /-- The conversion of an integer to `double`. -/
  of_int : Int → Double
  /-- The values `sscanf(s, "%lf,%lf", ...)` converts and stores, in order. -/
  scan_lf_lf : String → List Double

/-- The library's `json_number_value`: the value of a real, the converted
value of an integer, `0.0` for anything else. -/
def json_number_value (c : Libc) (json : Option Json) : Double :=
  match json with
  | some (Json.integer value) => c.of_int value
  | some (Json.real value) => value
  | _ => Double.zero

/-- C `sscanf(s, "%lf,%lf", &a, &b)`: reading through a null `s` is
undefined; otherwise the values converted. The call returns 2 exactly when
two values come back. -/
def sscanf_lf_lf (c : Libc) (s : Option String) : Run (List Double) :=
  match s with
  | none => Run.fault Fault.null_pointer
  | some text => Run.ok (c.scan_lf_lf text)

/-- The text of a `%s` conversion: printing a null pointer is undefined. -/
def fmt_s (s : Option String) : Run String :=
  match s with
  | none => Run.fault Fault.null_pointer
  | some text => Run.ok text

/-- Everything the outside world decides during one run of `main`. -/
structure World where
  libc : Libc
  /-- The library's `json_loads` on the text of a response: the document
  (`none` is `NULL`) and the error record it fills in. -/
  json_loads : List Byte → Option Json × json_error_t
  /-- The network during the fetch of the geolocation. -/
  location_net : Transport
  /-- The allocator's answer to the `malloc` of the URL buffer. -/
  url_heap : Alloc
  /-- The network during the fetch of the weather, given the URL. -/
  weather_net : String → Transport

/-! ## `get_location` -/

/-- The source's `LOCATION_URL`. -/
def LOCATION_URL : String := "https://ipinfo.io/json"

/-- The source's `struct location`. -/
structure location where
  latitude : Double
  longitude : Double
  deriving DecidableEq, Repr

/-- The value of `(struct location){ 0 }`. -/
def location.zero : location := ⟨Double.zero, Double.zero⟩

/-- What `get_location` leaves behind: the returned location and the error
output. -/
structure Located where
  value : location
  err : List String
  deriving DecidableEq, Repr

/-- The source's `get_location()`. -/
def get_location (w : World) : Run Located :=
  match request LOCATION_URL w.location_net with
  | Run.fault f => Run.fault f
  | Run.ok fetched =>
    match fetched.ret with
    | none =>
      Run.ok ⟨location.zero,
        fetched.err ++ [diag "172" "get_location" "failed to get location"]⟩
    | some response =>
      match c_string response with
      | Run.fault f => Run.fault f
      | Run.ok text =>
        match w.json_loads text with
        | (none, error) =>
          Run.ok ⟨location.zero,
            fetched.err ++ [diag "187" "get_location" ("failed to parse json: " ++ error.text)]⟩
        | (some root, error) =>
          match sscanf_lf_lf w.libc (json_string_value (json_object_get (some root) "loc")) with
          | Run.fault f => Run.fault f
          | Run.ok [latitude, longitude] => Run.ok ⟨⟨latitude, longitude⟩, fetched.err⟩
          | Run.ok _ =>
            Run.ok ⟨location.zero,
              fetched.err ++
                [diag "209" "get_location" ("failed to parse location: " ++ error.text)]⟩

/-! ## `main` -/

/-- C `EXIT_SUCCESS`. -/
def EXIT_SUCCESS : Int := 0

/-- C `EXIT_FAILURE`. -/
def EXIT_FAILURE : Int := 1

/-- What a run of `main` leaves behind: the exit status, the standard output
and the error output (each a sequence of `printf` results). -/
structure Exit where
  status : Int
  out : List String
  err : List String
  deriving DecidableEq, Repr

/-- The text `snprintf` produces from `WEATHER_URL_FORMAT` for a location. -/
def WEATHER_URL (c : Libc) (l : location) : String :=
  "https://api.open-meteo.com/v1/forecast?latitude=" ++ c.fmt_lg l.latitude ++
  "&longitude=" ++ c.fmt_lg l.longitude ++
  "&timezone=auto&current=temperature_2m,apparent_temperature,relative_humidity_2m" ++
  "&daily=temperature_2m_max,temperature_2m_min&forecast_days=1"

/-- Lines 282-512 of `main`: validation of the parsed weather document
`root` and printing of the report, in the order of the source. -/
def main_report (c : Libc) (root : Json) : Run Exit :=
  let current := json_object_get (some root) "current"
  if !json_is_object current then
    Run.ok ⟨EXIT_FAILURE, [], [diag "288" "main" "root doesn't contain current"]⟩
  else
  let current_units := json_object_get (some root) "current_units"
  if !json_is_object current_units then
    Run.ok ⟨EXIT_FAILURE, [], [diag "302" "main" "root doesn't contain current_units"]⟩
  else
  let temperature := json_object_get current "temperature_2m"
  if !json_is_number temperature then
    Run.ok ⟨EXIT_FAILURE, [], [diag "317" "main" "current doesn't contain temperature_2m"]⟩
  else
  let temperature_unit := json_object_get current_units "temperature_2m"
  if !json_is_string temperature_unit then
    Run.ok ⟨EXIT_FAILURE, [],
      [diag "331" "main" "current_units doesn't contain temperature_2m"]⟩
  else
  match fmt_s (json_string_value temperature_unit) with
  | Run.fault f => Run.fault f
  | Run.ok s1 =>
  let out1 := ["\tTemperature: " ++ c.fmt_lg (json_number_value c temperature) ++ s1 ++ "\n"]
  let apparent_temperature := json_object_get current "apparent_temperature"
  if !json_is_number apparent_temperature then
    Run.ok ⟨EXIT_FAILURE, out1,
      [diag "351" "main" "current doesn't contain apparent_temperature"]⟩
  else
  let apparent_temperature_unit := json_object_get current_units "apparent_temperature"
  if !json_is_string apparent_temperature_unit then
    Run.ok ⟨EXIT_FAILURE, out1,
      [diag "365" "main" "current_units doesn't contain apparent_temperature"]⟩
  else
  match fmt_s (json_string_value apparent_temperature_unit) with
  | Run.fault f => Run.fault f
  | Run.ok s2 =>
  let out2 := out1 ++
    ["\tApparent Temperature: " ++ c.fmt_lg (json_number_value c apparent_temperature) ++
      s2 ++ "\n"]
  let daily := json_object_get (some root) "daily"
  if !json_is_object daily then
    Run.ok ⟨EXIT_FAILURE, out2, [diag "385" "main" "root doesn't contain daily"]⟩
  else
  let daily_units := json_object_get (some root) "daily_units"
  if !json_is_object daily_units then
    Run.ok ⟨EXIT_FAILURE, out2, [diag "399" "main" "root doesn't contain daily_units"]⟩
  else
  let maximum_temperature := json_array_get (json_object_get daily "temperature_2m_max") 0
  if !json_is_number maximum_temperature then
    Run.ok ⟨EXIT_FAILURE, out2,
      [diag "414" "main" "daily doesn't contain temperature_2m_max"]⟩
  else
  let maximum_temperature_unit := json_object_get daily_units "temperature_2m_max"
  if !json_is_string maximum_temperature_unit then
    Run.ok ⟨EXIT_FAILURE, out2,
      [diag "428" "main" "daily_units doesn't contain temperature_2m_max"]⟩
  else
  match fmt_s (json_string_value maximum_temperature_unit) with
  | Run.fault f => Run.fault f
  | Run.ok s3 =>
  let out3 := out2 ++
    ["\tMaximum Temperature: " ++ c.fmt_lg (json_number_value c maximum_temperature) ++
      s3 ++ "\n"]
  let minimum_temperature := json_array_get (json_object_get daily "temperature_2m_min") 0
  if !json_is_number minimum_temperature then
    Run.ok ⟨EXIT_FAILURE, out3,
      [diag "448" "main" "daily doesn't contain temperature_2m_min"]⟩
  else
  let minimum_temperature_unit := json_object_get daily_units "temperature_2m_min"
  if !json_is_string minimum_temperature_unit then
    Run.ok ⟨EXIT_FAILURE, out3,
      [diag "462" "main" "daily_units doesn't contain temperature_2m_min"]⟩
  else
  match fmt_s (json_string_value minimum_temperature_unit) with
  | Run.fault f => Run.fault f
  | Run.ok s4 =>
  let out4 := out3 ++
    ["\tMinimum Temperature: " ++ c.fmt_lg (json_number_value c minimum_temperature) ++
      s4 ++ "\n"]
  let relative_humidity := json_object_get current "relative_humidity_2m"
  if !json_is_integer relative_humidity then
    Run.ok ⟨EXIT_FAILURE, out4,
      [diag "482" "main" "current doesn't contain relative_humidity_2m"]⟩
  else
  let relative_humidity_unit := json_object_get current_units "relative_humidity_2m"
  if !json_is_string relative_humidity_unit then
    Run.ok ⟨EXIT_FAILURE, out4,
      [diag "496" "main" "current_units doesn't contain relative_humidity_2m"]⟩
  else
  match fmt_s (json_string_value relative_humidity_unit) with
  | Run.fault f => Run.fault f
  | Run.ok s5 =>
  Run.ok ⟨EXIT_SUCCESS,
    out4 ++
      ["\tRelative Humidity: " ++ toString (json_integer_value relative_humidity) ++
        s5 ++ "\n"],
    []⟩

/-- The source's `main()`. -/
def main (w : World) : Run Exit :=
  match get_location w with
  | Run.fault f => Run.fault f
  | Run.ok located =>
    let out0 :=
      ["Location:\n\tLatitude: " ++ w.libc.fmt_lg located.value.latitude ++
        "\n\tLongitude: " ++ w.libc.fmt_lg located.value.longitude ++ "\n\n"]
    let url := WEATHER_URL w.libc located.value
    match malloc (url.utf8ByteSize + 1) w.url_heap with
    | none =>
      Run.ok ⟨EXIT_FAILURE, out0,
        located.err ++ [diag "245" "main" "failed to allocate buffer for url"]⟩
    | some _ =>
      match request url (w.weather_net url) with
      | Run.fault f => Run.fault f
      | Run.ok fetched =>
        match fetched.ret with
        | none =>
          Run.ok ⟨EXIT_FAILURE, out0,
            located.err ++ fetched.err ++ [diag "257" "main" "failed to get weather"]⟩
        | some response =>
          match c_string response with
          | Run.fault f => Run.fault f
          | Run.ok text =>
            match w.json_loads text with
            | (none, error) =>
              Run.ok ⟨EXIT_FAILURE, out0 ++ ["Weather:\n"],
                located.err ++ fetched.err ++
                  [diag "272" "main"
                    ("failed to parse json: " ++ toString error.line ++ ":" ++
                      toString error.column ++ ": " ++ error.text)]⟩
            | (some root, _) =>
              match main_report w.libc root with
              | Run.fault f => Run.fault f
              | Run.ok e =>
                Run.ok ⟨e.status, out0 ++ ["Weather:\n"] ++ e.out,
                  located.err ++ fetched.err ++ e.err⟩

/-! ## Notions used to state the properties -/

/-- The bytes a response holds: the first `size` bytes of its buffer. -/
def stored (r : response) : List Byte :=
  match r.buffer with
  | none => []
  | some b => (List.range r.size).map b.data

/-- The invariant of the response buffer: the length leaves room for one
terminator byte inside the capacity. -/
def room_for_terminator (r : response) : Prop := r.size + 1 ≤ r.capacity

/-- A response object as the program keeps it: the buffer is a block of
exactly `capacity` bytes, `capacity` is a `size_t`, and the invariant
holds. -/
def well_formed (r : response) : Prop :=
  (∃ b, r.buffer = some b ∧ b.alloc = r.capacity) ∧
  r.capacity ≤ SIZE_MAX ∧ room_for_terminator r

/-- A delivery as the transport makes it: a nonzero element size and a chunk
of `size * nmemb` bytes. -/
def Delivery.valid (d : Delivery) : Prop :=
  1 ≤ d.size ∧ d.ptr.length = d.size * d.nmemb

/-- A call that `write_response` accepts: valid, passing the integrity check
of line 23, and not refused by the allocator when the buffer has to grow. -/
def accepts (d : Delivery) (r : response) : Bool :=
  decide (1 ≤ d.size) && decide (d.ptr.length = d.size * d.nmemb) &&
  !overflows d.size d.nmemb r &&
  (decide (add_size_t r.size (mul_size_t d.nmemb d.size) < r.capacity) || d.heap.isSome)

/-- The successive calls of `write_response` on a sequence of deliveries,
each on the response the previous one left: the values returned and the
final response. -/
def write_all : List Delivery → response → Run (List Nat × response)
  | [], r => Run.ok ([], r)
  | d :: ds, r =>
    match write_response d.ptr d.size d.nmemb r d.heap with
    | Run.fault f => Run.fault f
    | Run.ok w =>
      match write_all ds w.response with
      | Run.fault f => Run.fault f
      | Run.ok (rets, r') => Run.ok (w.ret :: rets, r')

/-- Every call of the sequence is accepted, each judged on the response the
previous calls left. -/
def all_accepted : List Delivery → response → Bool
  | [], _ => true
  | d :: ds, r =>
    accepts d r &&
    match write_response d.ptr d.size d.nmemb r d.heap with
    | Run.fault _ => false
    | Run.ok w => all_accepted ds w.response

/-! ## The validation order, as the specification words it -/

/-- The checks `main` makes on the weather document: the four container
objects and the ten fields. -/
inductive Check where
  | current
  | current_units
  | temperature
  | temperature_unit
  | apparent_temperature
  | apparent_temperature_unit
  | daily
  | daily_units
  | maximum_temperature
  | maximum_temperature_unit
  | minimum_temperature
  | minimum_temperature_unit
  | relative_humidity
  | relative_humidity_unit
  deriving DecidableEq, Repr

/-- The fixed order of the specification: temperature, temperature unit,
apparent temperature, apparent temperature unit, daily max, daily max unit,
daily min, daily min unit, relative humidity, relative humidity unit, each
container object standing before its first field. -/
def validation_order : List Check :=
  [Check.current, Check.current_units, Check.temperature, Check.temperature_unit,
   Check.apparent_temperature, Check.apparent_temperature_unit,
   Check.daily, Check.daily_units, Check.maximum_temperature, Check.maximum_temperature_unit,
   Check.minimum_temperature, Check.minimum_temperature_unit,
   Check.relative_humidity, Check.relative_humidity_unit]

/-- The member `key` of the member `container` of the document. -/
def member (root : Json) (container key : String) : Option Json :=
  json_object_get (json_object_get (some root) container) key

/-- What each check requires of the document. -/
def Check.passes (root : Json) : Check → Bool
  | Check.current => json_is_object (json_object_get (some root) "current")
  | Check.current_units => json_is_object (json_object_get (some root) "current_units")
  | Check.temperature => json_is_number (member root "current" "temperature_2m")
  | Check.temperature_unit => json_is_string (member root "current_units" "temperature_2m")
  | Check.apparent_temperature => json_is_number (member root "current" "apparent_temperature")
  | Check.apparent_temperature_unit =>
    json_is_string (member root "current_units" "apparent_temperature")
  | Check.daily => json_is_object (json_object_get (some root) "daily")
  | Check.daily_units => json_is_object (json_object_get (some root) "daily_units")
  | Check.maximum_temperature =>
    json_is_number (json_array_get (member root "daily" "temperature_2m_max") 0)
  | Check.maximum_temperature_unit =>
    json_is_string (member root "daily_units" "temperature_2m_max")
  | Check.minimum_temperature =>
    json_is_number (json_array_get (member root "daily" "temperature_2m_min") 0)
  | Check.minimum_temperature_unit =>
    json_is_string (member root "daily_units" "temperature_2m_min")
  | Check.relative_humidity => json_is_integer (member root "current" "relative_humidity_2m")
  | Check.relative_humidity_unit =>
    json_is_string (member root "current_units" "relative_humidity_2m")

/-- The diagnostic of a failed check: it names the field (or container) that
was not found and the object it was looked up in. -/
def Check.diagnostic : Check → String
  | Check.current => diag "288" "main" "root doesn't contain current"
  | Check.current_units => diag "302" "main" "root doesn't contain current_units"
  | Check.temperature => diag "317" "main" "current doesn't contain temperature_2m"
  | Check.temperature_unit => diag "331" "main" "current_units doesn't contain temperature_2m"
  | Check.apparent_temperature =>
    diag "351" "main" "current doesn't contain apparent_temperature"
  | Check.apparent_temperature_unit =>
    diag "365" "main" "current_units doesn't contain apparent_temperature"
  | Check.daily => diag "385" "main" "root doesn't contain daily"
  | Check.daily_units => diag "399" "main" "root doesn't contain daily_units"
  | Check.maximum_temperature => diag "414" "main" "daily doesn't contain temperature_2m_max"
  | Check.maximum_temperature_unit =>
    diag "428" "main" "daily_units doesn't contain temperature_2m_max"
  | Check.minimum_temperature => diag "448" "main" "daily doesn't contain temperature_2m_min"
  | Check.minimum_temperature_unit =>
    diag "462" "main" "daily_units doesn't contain temperature_2m_min"
  | Check.relative_humidity =>
    diag "482" "main" "current doesn't contain relative_humidity_2m"
  | Check.relative_humidity_unit =>
    diag "496" "main" "current_units doesn't contain relative_humidity_2m"

/-- The text of a unit field (empty when the field is no string). -/
def unit_text (json : Option Json) : String :=
  match json_string_value json with
  | some text => text
  | none => ""

/-- The report line that is complete once a check has passed: a value/unit
pair is complete with its unit check, the other checks complete nothing. -/
def Check.line (c : Libc) (root : Json) : Check → Option String
  | Check.temperature_unit =>
    some ("\tTemperature: " ++
      c.fmt_lg (json_number_value c (member root "current" "temperature_2m")) ++
      unit_text (member root "current_units" "temperature_2m") ++ "\n")
  | Check.apparent_temperature_unit =>
    some ("\tApparent Temperature: " ++
      c.fmt_lg (json_number_value c (member root "current" "apparent_temperature")) ++
      unit_text (member root "current_units" "apparent_temperature") ++ "\n")
  | Check.maximum_temperature_unit =>
    some ("\tMaximum Temperature: " ++
      c.fmt_lg (json_number_value c
        (json_array_get (member root "daily" "temperature_2m_max") 0)) ++
      unit_text (member root "daily_units" "temperature_2m_max") ++ "\n")
  | Check.minimum_temperature_unit =>
    some ("\tMinimum Temperature: " ++
      c.fmt_lg (json_number_value c
        (json_array_get (member root "daily" "temperature_2m_min") 0)) ++
      unit_text (member root "daily_units" "temperature_2m_min") ++ "\n")
  | Check.relative_humidity_unit =>
    some ("\tRelative Humidity: " ++
      toString (json_integer_value (member root "current" "relative_humidity_2m")) ++
      unit_text (member root "current_units" "relative_humidity_2m") ++ "\n")
  | _ => none

/-- The first check of the fixed order the document fails, if any. -/
def first_failure (root : Json) : Option Check :=
  validation_order.find? (fun k => !k.passes root)

/-- The report lines of the pairs completed by the checks of a list. -/
def lines_of (c : Libc) (root : Json) (checks : List Check) : List String :=
  checks.filterMap (Check.line c root)

/-- The checks that stand before `k` in the fixed order. -/
def checks_before (k : Check) : List Check :=
  validation_order.takeWhile (fun j => decide (j ≠ k))

/-- The document the specification expects: the four containers are objects,
the two temperatures of `current` are numbers, its humidity is an integer,
the two members of `daily` are arrays whose element 0 is a number, and the
five unit fields are strings. -/
def valid_weather (root : Json) : Prop :=
  json_is_object (json_object_get (some root) "current") = true ∧
  json_is_object (json_object_get (some root) "current_units") = true ∧
  json_is_object (json_object_get (some root) "daily") = true ∧
  json_is_object (json_object_get (some root) "daily_units") = true ∧
  json_is_number (member root "current" "temperature_2m") = true ∧
  json_is_number (member root "current" "apparent_temperature") = true ∧
  json_is_integer (member root "current" "relative_humidity_2m") = true ∧
  json_is_number (json_array_get (member root "daily" "temperature_2m_max") 0) = true ∧
  json_is_number (json_array_get (member root "daily" "temperature_2m_min") 0) = true ∧
  json_is_string (member root "current_units" "temperature_2m") = true ∧
  json_is_string (member root "current_units" "apparent_temperature") = true ∧
  json_is_string (member root "current_units" "relative_humidity_2m") = true ∧
  json_is_string (member root "daily_units" "temperature_2m_max") = true ∧
  json_is_string (member root "daily_units" "temperature_2m_min") = true

instance (root : Json) : Decidable (valid_weather root) := by
  unfold valid_weather
  infer_instance

/-- The report `main` owes a document, in the specification's words: stop at
the first failing check of the fixed order, having printed the lines of the
pairs completed before it. -/
def spec_report (c : Libc) (root : Json) : Exit :=
  match first_failure root with
  | none => ⟨EXIT_SUCCESS, lines_of c root validation_order, []⟩
  | some k => ⟨EXIT_FAILURE, lines_of c root (checks_before k), [k.diagnostic]⟩

/-! ## Concrete environments for the examples -/

/-- The bytes of an ASCII text. -/
def ascii (s : String) : List Byte := s.toList.map (fun ch => UInt8.ofNat ch.toNat)

/-- A libc for the examples: the doubles in play are whole numbers, kept as
such in `bits` and shown in decimal (as `%lg` shows a whole number); nothing
scans. -/
def example_libc : Libc :=
  { fmt_lg := fun d => toString d.bits, of_int := fun i => ⟨i.toNat⟩, scan_lf_lf := fun _ => [] }

/-- The text of a weather response. -/
def example_weather_text : String :=
  "\x7b\"current\":\x7b\"temperature_2m\":21,\"apparent_temperature\":20," ++
  "\"relative_humidity_2m\":40\x7d,\"current_units\":\x7b\"temperature_2m\":\"C\"," ++
  "\"apparent_temperature\":\"C\",\"relative_humidity_2m\":\"%\"\x7d," ++
  "\"daily\":\x7b\"temperature_2m_max\":[25],\"temperature_2m_min\":[15]\x7d," ++
  "\"daily_units\":\x7b\"temperature_2m_max\":\"C\",\"temperature_2m_min\":\"C\"\x7d\x7d"

/-- The document `example_weather_text` parses to. -/
def example_weather : Json :=
  Json.object
    [("current", Json.object
        [("temperature_2m", Json.integer 21), ("apparent_temperature", Json.integer 20),
         ("relative_humidity_2m", Json.integer 40)]),
     ("current_units", Json.object
        [("temperature_2m", Json.string "C"), ("apparent_temperature", Json.string "C"),
         ("relative_humidity_2m", Json.string "%")]),
     ("daily", Json.object
        [("temperature_2m_max", Json.array [Json.integer 25]),
         ("temperature_2m_min", Json.array [Json.integer 15])]),
     ("daily_units", Json.object
        [("temperature_2m_max", Json.string "C"), ("temperature_2m_min", Json.string "C")])]

/-- The weather document with `current.relative_humidity_2m` left out. -/
def example_weather_without_humidity : Json :=
  Json.object
    [("current", Json.object
        [("temperature_2m", Json.integer 21), ("apparent_temperature", Json.integer 20)]),
     ("current_units", Json.object
        [("temperature_2m", Json.string "C"), ("apparent_temperature", Json.string "C"),
         ("relative_humidity_2m", Json.string "%")]),
     ("daily", Json.object
        [("temperature_2m_max", Json.array [Json.integer 25]),
         ("temperature_2m_min", Json.array [Json.integer 15])]),
     ("daily_units", Json.object
        [("temperature_2m_max", Json.string "C"), ("temperature_2m_min", Json.string "C")])]

/-- The parser on the two texts of the examples: the weather text and the
empty object (bytes 123, 125); every other text is refused. -/
def example_json_loads (text : List Byte) : Option Json × json_error_t :=
  if text = ascii example_weather_text then (some example_weather, ⟨-1, -1, ""⟩)
  else if text = [123, 125] then (some (Json.object []), ⟨-1, -1, ""⟩)
  else (none, ⟨1, 0, "invalid token"⟩)

/-- A transfer that delivers `body` in one chunk and ends with HTTP 200. -/
def serves (body : List Byte) : Transport :=
  { init := true, buffer := some ⟨4096, fun _ => 0⟩,
    deliveries := [⟨body, 1, body.length, none⟩], result := CURLE_OK,
    strerror := fun _ => "", code := 200, shrink := some ⟨8192, fun _ => 0⟩ }

/-- A run in which the geolocation service answers with the empty object. -/
def world_without_loc : World :=
  { libc := example_libc, json_loads := example_json_loads,
    location_net := serves [123, 125], url_heap := some ⟨12288, fun _ => 0⟩,
    weather_net := fun _ => serves (ascii example_weather_text) }

/-- A run in which the geolocation service answers HTTP 500 and the weather
service answers normally. -/
def world_location_down : World :=
  { libc := example_libc, json_loads := example_json_loads,
    location_net := { serves [] with code := 500 }, url_heap := some ⟨12288, fun _ => 0⟩,
    weather_net := fun _ => serves (ascii example_weather_text) }

/-! ## Notions for the growth policy -/

/-- One step of the growth the specification describes: doubling over
unbounded integers, where 0 steps to 1 and a capacity above `SIZE_MAX / 2`
steps to `SIZE_MAX`. -/
def doubling_step (capacity : Nat) : Nat :=
  if capacity = 0 then 1
  else if capacity > SIZE_MAX / 2 then SIZE_MAX
  else 2 * capacity

/-- The sequence obtained from `capacity` by repeated doubling: term 0 is
`capacity` itself, term `k + 1` is term `k` of the sequence from the next
step. -/
def doubling_sequence : Nat → Nat → Nat
  | capacity, 0 => capacity
  | capacity, k + 1 => doubling_sequence (doubling_step capacity) k

/-- The values the variable `capacity` takes in the `do ... while` loop of
lines 37-45, one per execution of the body, in order (as far as `fuel`
iterations go). -/
def grow_trace : Nat → Nat → Nat → List Nat
  | 0, _, _ => []
  | fuel + 1, need, capacity =>
    let capacity := next_capacity capacity
    capacity :: (if need ≥ capacity then grow_trace fuel need capacity else [])

/-- What one execution of the loop body may do to `capacity` without
wrapping: `a` becomes `b`, strictly larger and at most `SIZE_MAX`, by the
step from 0 to 1, by the clamp to `SIZE_MAX`, or by an exact doubling. -/
def grows_without_wrap (a b : Nat) : Prop :=
  a < b ∧ b ≤ SIZE_MAX ∧
    ((a = 0 ∧ b = 1) ∨ (a > SIZE_MAX / 2 ∧ b = SIZE_MAX) ∨ (a ≤ SIZE_MAX / 2 ∧ b = 2 * a))

/-! ## Concrete environments for the geolocation examples -/

/-- The text of a geolocation response whose `loc` member is `s`. -/
def loc_text (s : String) : String := "\x7b\"loc\": \"" ++ s ++ "\"\x7d"

/-- A libc for the geolocation examples: `"%lf,%lf"` converts nothing from
`not-a-location`, only the first number from `12.5,abc` (the bit pattern of
12.5), and both numbers from `37.4,-122.1` (their bit patterns). -/
def scanning_libc : Libc :=
  { fmt_lg := fun d => toString d.bits, of_int := fun i => ⟨i.toNat⟩,
    scan_lf_lf := fun s =>
      if s = "12.5,abc" then [⟨4623226492472524800⟩]
      else if s = "37.4,-122.1" then [⟨4630460399373988659⟩, ⟨13861664477455738470⟩]
      else [] }

/-- A run in which the geolocation service answers with a document whose
`loc` member is the string `s`. -/
def world_with_loc (s : String) : World :=
  { libc := scanning_libc,
    json_loads := fun text =>
      if text = ascii (loc_text s) then
        (some (Json.object [("loc", Json.string s)]), ⟨-1, -1, ""⟩)
      else (none, ⟨1, 0, "invalid token"⟩),
    location_net := serves (ascii (loc_text s)), url_heap := some ⟨12288, fun _ => 0⟩,
    weather_net := fun _ => serves (ascii example_weather_text) }

/-! ## Arithmetic of the integrity check -/

theorem mul_lt_of_lt_div (size nmemb : Nat) (hsize : 1 ≤ size)
    (h : nmemb < SIZE_MAX / size) : size * nmemb < SIZE_MAX := by
  have h1 : (nmemb + 1) * size ≤ SIZE_MAX := (Nat.le_div_iff_mul_le hsize).mp h
  have h2 : (nmemb + 1) * size = size * nmemb + size := by ring
  omega

theorem overflows_eq_false_iff (size nmemb : Nat) (r : response) (hsize : 1 ≤ size) :
    overflows size nmemb r = false ↔
      nmemb < SIZE_MAX / size ∧ r.size + size * nmemb < SIZE_MAX := by
  unfold overflows
  rw [Bool.or_eq_false_iff, decide_eq_false_iff_not, decide_eq_false_iff_not]
  constructor
  · rintro ⟨h1, h2⟩
    have h3 : nmemb < SIZE_MAX / size := by omega
    have h4 := mul_lt_of_lt_div size nmemb hsize h3
    refine ⟨h3, ?_⟩
    unfold sub_size_t mul_size_t to_size_t at h2
    unfold SIZE_MAX at h2 h4 ⊢
    omega
  · rintro ⟨h1, h2⟩
    refine ⟨by omega, ?_⟩
    unfold sub_size_t mul_size_t to_size_t
    unfold SIZE_MAX at h2 ⊢
    omega

theorem size_t_of_accepted (size nmemb : Nat) (r : response) (hsize : 1 ≤ size)
    (h : overflows size nmemb r = false) :
    mul_size_t nmemb size = size * nmemb ∧
      add_size_t r.size (mul_size_t nmemb size) = r.size + size * nmemb ∧
      r.size + size * nmemb < SIZE_MAX := by
  obtain ⟨_, h2⟩ := (overflows_eq_false_iff size nmemb r hsize).mp h
  have hc : nmemb * size = size * nmemb := Nat.mul_comm _ _
  unfold add_size_t mul_size_t to_size_t
  rw [hc]
  unfold SIZE_MAX at h2 ⊢
  omega

/-! ## The doubling loop -/

theorem next_capacity_le (capacity : Nat) : next_capacity capacity ≤ SIZE_MAX := by
  unfold next_capacity mul_size_t to_size_t SIZE_MAX
  split
  · omega
  · split <;> omega

theorem grow_capacity_spec (fuel need capacity c : Nat)
    (h : grow_capacity fuel need capacity = some c) : need < c ∧ c ≤ SIZE_MAX := by
  induction fuel generalizing capacity with
  | zero => simp [grow_capacity] at h
  | succ fuel ih =>
    simp only [grow_capacity] at h
    split at h
    · exact ih _ h
    · injection h with h
      subst h
      exact ⟨by omega, next_capacity_le capacity⟩

theorem grow_capacity_terminates_from_pos (fuel need capacity : Nat) (hneed : need < SIZE_MAX)
    (hpos : 1 ≤ capacity) (hfuel : SIZE_MAX / 2 < capacity * 2 ^ fuel) :
    ∃ c, grow_capacity (fuel + 1) need capacity = some c := by
  induction fuel generalizing capacity with
  | zero =>
    have hn : next_capacity capacity = SIZE_MAX := by
      unfold next_capacity
      rw [if_neg (by omega), if_pos (by omega)]
    refine ⟨SIZE_MAX, ?_⟩
    simp only [grow_capacity, hn]
    rw [if_neg (by omega)]
  | succ fuel ih =>
    by_cases hbig : capacity > SIZE_MAX / 2
    · have hn : next_capacity capacity = SIZE_MAX := by
        unfold next_capacity
        rw [if_neg (by omega), if_pos hbig]
      refine ⟨SIZE_MAX, ?_⟩
      rw [grow_capacity]
      simp only [hn]
      rw [if_neg (by omega)]
    · have hn : next_capacity capacity = capacity * 2 := by
        unfold next_capacity mul_size_t to_size_t
        rw [if_neg (by omega), if_neg hbig]
        unfold SIZE_MAX at hbig ⊢
        omega
      rw [grow_capacity]
      simp only [hn]
      split
      · apply ih
        · omega
        · have : capacity * 2 * 2 ^ fuel = capacity * 2 ^ (fuel + 1) := by ring
          omega
      · exact ⟨_, rfl⟩

theorem grow_capacity_terminates (need capacity : Nat) (hneed : need < SIZE_MAX) :
    ∃ c, grow_capacity GROW_FUEL need capacity = some c := by
  unfold GROW_FUEL
  by_cases hpos : 1 ≤ capacity
  · apply grow_capacity_terminates_from_pos 65 need capacity hneed hpos
    have : (2 : Nat) ^ 65 = 36893488147419103232 := by norm_num
    unfold SIZE_MAX
    omega
  · have h0 : capacity = 0 := by omega
    subst h0
    rw [grow_capacity]
    have hn : next_capacity 0 = 1 := by simp [next_capacity]
    simp only [hn]
    split
    · apply grow_capacity_terminates_from_pos 64 need 1 hneed (by omega)
      have : (2 : Nat) ^ 64 = 18446744073709551616 := by norm_num
      unfold SIZE_MAX
      omega
    · exact ⟨_, rfl⟩

/-! ## One call of the write callback -/

theorem range_map_append (s n : Nat) (old new : Nat → Byte) (ptr : List Byte)
    (hlen : ptr.length = n) (hold : ∀ i, i < s → new i = old i)
    (hnew : ∀ i, s ≤ i → i < s + n → new i = ptr.getD (i - s) 0) :
    (List.range (s + n)).map new = (List.range s).map old ++ ptr := by
  apply List.ext_getElem
  · simp [hlen]
  · intro i h1 h2
    simp only [List.length_map, List.length_range] at h1
    by_cases hi : i < s
    · rw [List.getElem_append_left (by simpa using hi)]
      simp [hold i hi]
    · rw [List.getElem_append_right (by simpa using hi)]
      simp only [List.getElem_map, List.getElem_range, List.length_map, List.length_range]
      rw [hnew i (by omega) h1, List.getD_eq_getElem _ _ (by omega)]

theorem store_chunk_spec (ptr : List Byte) (n : Nat) (r : response) (b : Block)
    (hb : r.buffer = some b) (hfit : r.size + n ≤ b.alloc) (hlen : ptr.length = n) :
    ∃ b', store_chunk ptr n r =
        Run.ok ⟨n, { r with buffer := some b', size := add_size_t r.size n }, []⟩ ∧
      b'.alloc = b.alloc ∧ b'.addr = b.addr ∧
      (List.range (r.size + n)).map b'.data = (List.range r.size).map b.data ++ ptr := by
  refine ⟨{ b with data := fun i =>
      if r.size ≤ i ∧ i < r.size + n then ptr.getD (i - r.size) 0 else b.data i }, ?_, rfl, rfl, ?_⟩
  · unfold store_chunk memcpy
    rw [hb]
    simp only
    rw [if_pos ⟨hfit, by omega⟩]
  · apply range_map_append _ _ _ _ _ hlen
    · intro i hi
      simp only
      rw [if_neg (by omega)]
    · intro i h1 h2
      simp only
      rw [if_pos ⟨h1, h2⟩]

theorem write_response_rejected (ptr : List Byte) (size nmemb : Nat) (r : response)
    (heap : Alloc) (hsize : 1 ≤ size) (h : overflows size nmemb r = true) :
    write_response ptr size nmemb r heap =
      Run.ok ⟨0, r, [diag "28" "write_response" "buffer capacity overflowed"]⟩ := by
  unfold write_response
  rw [if_neg (by omega), if_pos h]

theorem write_response_accepted (d : Delivery) (r : response) (hr : well_formed r)
    (hd : accepts d r = true) :
    ∃ w, write_response d.ptr d.size d.nmemb r d.heap = Run.ok w ∧
      w.ret = d.nmemb * d.size ∧ w.response.size = r.size + d.nmemb * d.size ∧
      well_formed w.response ∧ stored w.response = stored r ++ d.ptr ∧
      r.capacity ≤ w.response.capacity ∧ w.err = [] := by
  obtain ⟨⟨b, hb, halloc⟩, hcap, hroom⟩ := hr
  unfold room_for_terminator at hroom
  unfold accepts at hd
  simp only [Bool.and_eq_true, Bool.or_eq_true, decide_eq_true_eq, Bool.not_eq_true'] at hd
  obtain ⟨⟨⟨hsize, hlen⟩, hov⟩, hheap⟩ := hd
  obtain ⟨hmul, hadd, hlt⟩ := size_t_of_accepted d.size d.nmemb r hsize hov
  have hc : d.nmemb * d.size = d.size * d.nmemb := Nat.mul_comm _ _
  have hadd' : add_size_t r.size (d.size * d.nmemb) = r.size + d.size * d.nmemb := by
    have h := hadd
    rw [hmul] at h
    exact h
  unfold write_response
  rw [if_neg (by omega), hov, hadd, hmul]
  simp only [Bool.false_eq_true, if_false]
  rw [hadd] at hheap
  by_cases hgrow : r.size + d.size * d.nmemb ≥ r.capacity
  · rw [if_pos hgrow]
    obtain ⟨c, hc1⟩ := grow_capacity_terminates (r.size + d.size * d.nmemb) r.capacity hlt
    obtain ⟨hc2, hc3⟩ := grow_capacity_spec _ _ _ _ hc1
    have hsome : d.heap.isSome = true := by
      rcases hheap with h | h
      · omega
      · exact h
    obtain ⟨f, hf⟩ := Option.isSome_iff_exists.mp hsome
    rw [hc1, hf]
    simp only [realloc, hb]
    obtain ⟨b', h1, h2, _, h4⟩ := store_chunk_spec d.ptr (d.size * d.nmemb)
      { r with
        buffer := some ⟨f.addr, c, fun i => if i < min b.alloc c then b.data i else f.fresh i⟩,
        capacity := c } _ rfl (by simp only; omega) hlen
    refine ⟨_, h1, by simp only; omega, ?_, ?_, ?_, by simp only; omega, rfl⟩
    · simp only [hadd']
      omega
    · refine ⟨⟨b', rfl, h2⟩, hc3, ?_⟩
      simp only [room_for_terminator, hadd']
      omega
    · simp only [stored, hadd', hb]
      simp only at h4
      rw [h4]
      congr 1
      apply List.map_congr_left
      intro i hi
      rw [List.mem_range] at hi
      show (if i < min b.alloc c then b.data i else f.fresh i) = b.data i
      rw [if_pos (by omega)]
  · rw [if_neg hgrow]
    obtain ⟨b', h1, h2, _, h4⟩ := store_chunk_spec d.ptr (d.size * d.nmemb) r b hb
      (by omega) hlen
    refine ⟨_, h1, by simp only; omega, ?_, ?_, ?_, by simp only; omega, rfl⟩
    · simp only [hadd']
      omega
    · refine ⟨⟨b', rfl, by simp only; omega⟩, hcap, ?_⟩
      simp only [room_for_terminator, hadd']
      omega
    · simp only [stored, hadd', hb]
      exact h4

theorem write_response_refused (d : Delivery) (r : response) (hd : d.valid)
    (h : accepts d r = false) :
    ∃ err, write_response d.ptr d.size d.nmemb r d.heap = Run.ok ⟨0, r, err⟩ := by
  obtain ⟨hsize, hlen⟩ := hd
  by_cases hov : overflows d.size d.nmemb r = true
  · exact ⟨_, write_response_rejected d.ptr d.size d.nmemb r d.heap hsize hov⟩
  · have hov' : overflows d.size d.nmemb r = false := by simpa using hov
    obtain ⟨hmul, hadd, hlt⟩ := size_t_of_accepted d.size d.nmemb r hsize hov'
    unfold accepts at h
    simp only [hov', hsize, hlen, hadd, Bool.and_eq_false_iff, Bool.or_eq_false_iff,
      decide_eq_false_iff_not, decide_True, Bool.not_false, Bool.true_and, Bool.and_true,
      Bool.true_eq_false, false_or, not_lt] at h
    obtain ⟨hgrow, hsome⟩ := h
    have hheap : d.heap = none := by
      cases hh : d.heap with
      | none => rfl
      | some f => rw [hh] at hsome; cases hsome
    obtain ⟨c, hc⟩ := grow_capacity_terminates (r.size + d.size * d.nmemb) r.capacity hlt
    unfold write_response
    rw [if_neg (by omega), hov', hadd, hmul]
    simp only [Bool.false_eq_true, if_false]
    rw [if_pos hgrow, hc, hheap]
    exact ⟨_, rfl⟩

theorem store_chunk_size (ptr : List Byte) (n : Nat) (r : response) (w : Written)
    (h : store_chunk ptr n r = Run.ok w) :
    w.ret = n ∧ w.response.size = add_size_t r.size n ∧ w.response.capacity = r.capacity := by
  unfold store_chunk at h
  split at h
  · cases h
  · injection h with h
    subst h
    exact ⟨rfl, rfl, rfl⟩

theorem write_response_room (ptr : List Byte) (size nmemb : Nat) (r : response) (heap : Alloc)
    (w : Written) (hr : room_for_terminator r)
    (h : write_response ptr size nmemb r heap = Run.ok w) :
    room_for_terminator w.response := by
  unfold write_response at h
  split at h
  · cases h
  · split at h
    · injection h with h
      subst h
      exact hr
    · split at h
      · split at h
        · cases h
        · rename_i c hc
          split at h
          · injection h with h
            subst h
            exact hr
          · obtain ⟨_, h2, h3⟩ := store_chunk_size _ _ _ _ h
            have := (grow_capacity_spec _ _ _ _ hc).1
            unfold room_for_terminator
            rw [h2, h3]
            simp only
            omega
      · rename_i hno
        obtain ⟨_, h2, h3⟩ := store_chunk_size _ _ _ _ h
        unfold room_for_terminator
        rw [h2, h3]
        omega

/-! ## Sequences of calls -/

theorem write_all_spec (ds : List Delivery) (r : response) (hr : well_formed r)
    (h : all_accepted ds r = true) :
    ∃ r', write_all ds r = Run.ok (ds.map (fun d => d.nmemb * d.size), r') ∧
      r'.size = r.size + (ds.map (fun d => d.nmemb * d.size)).sum ∧
      stored r' = stored r ++ (ds.map Delivery.ptr).flatten ∧ well_formed r' := by
  induction ds generalizing r with
  | nil => exact ⟨r, rfl, by simp, by simp, hr⟩
  | cons d ds ih =>
    simp only [all_accepted, Bool.and_eq_true] at h
    obtain ⟨hacc, hrest⟩ := h
    obtain ⟨w, hw, hret, hsz, hwf, hst, _⟩ := write_response_accepted d r hr hacc
    rw [hw] at hrest
    obtain ⟨r', h1, h2, h3, h4⟩ := ih w.response hwf hrest
    refine ⟨r', ?_, ?_, ?_, h4⟩
    · simp only [write_all, hw, h1, hret, List.map_cons]
    · simp only [List.map_cons, List.sum_cons]
      omega
    · rw [h3, hst]
      simp

theorem curl_easy_perform_room (ds : List Delivery) (final : Nat) (r : response)
    (tr : Transfer) (hr : room_for_terminator r)
    (h : curl_easy_perform ds final r = Run.ok tr) : room_for_terminator tr.response := by
  induction ds generalizing r tr with
  | nil =>
    simp only [curl_easy_perform] at h
    injection h with h
    subst h
    exact hr
  | cons d ds ih =>
    simp only [curl_easy_perform] at h
    split at h
    · cases h
    · rename_i w hw
      have hw' := write_response_room _ _ _ _ _ _ hr hw
      split at h
      · injection h with h
        subst h
        exact hw'
      · split at h
        · cases h
        · rename_i t ht
          injection h with h
          subst h
          exact ih w.response t hw' ht

theorem curl_easy_perform_spec (ds : List Delivery) (final : Nat) (r : response)
    (hr : well_formed r) (hds : ∀ d ∈ ds, d.valid) :
    ∃ tr, curl_easy_perform ds final r = Run.ok tr ∧ well_formed tr.response ∧
      (tr.status = CURLE_OK →
        final = CURLE_OK ∧ stored tr.response = stored r ++ (ds.map Delivery.ptr).flatten ∧
        tr.response.size = r.size + (ds.map Delivery.ptr).flatten.length) := by
  induction ds generalizing r with
  | nil => exact ⟨⟨final, r, []⟩, rfl, hr, fun h => ⟨h, by simp, by simp⟩⟩
  | cons d ds ih =>
    have hd : d.valid := hds d (List.mem_cons_self _ _)
    have hds' : ∀ e ∈ ds, e.valid := fun e he => hds e (List.mem_cons_of_mem _ he)
    by_cases hacc : accepts d r = true
    · obtain ⟨w, hw, hret, hsz, hwf, hst, _⟩ := write_response_accepted d r hr hacc
      obtain ⟨tr, h1, h2, h3⟩ := ih w.response hwf hds'
      have hc : d.nmemb * d.size = d.size * d.nmemb := Nat.mul_comm _ _
      refine ⟨⟨tr.status, tr.response, w.err ++ tr.err⟩, ?_, h2, ?_⟩
      · simp only [curl_easy_perform, hw, h1]
        rw [if_neg (by omega)]
      · intro hok
        obtain ⟨h4, h5, h6⟩ := h3 hok
        refine ⟨h4, ?_, ?_⟩
        · simp only
          rw [h5, hst]
          simp
        · show tr.response.size = r.size + (d.ptr ++ (ds.map Delivery.ptr).flatten).length
          rw [List.length_append, h6, hsz, hd.2]
          omega
    · have hacc' : accepts d r = false := by simpa using hacc
      obtain ⟨err, hw⟩ := write_response_refused d r hd hacc'
      by_cases hz : 0 ≠ d.size * d.nmemb
      · refine ⟨⟨CURLE_WRITE_ERROR, r, err⟩, ?_, hr, ?_⟩
        · simp only [curl_easy_perform, hw]
          rw [if_pos hz]
        · intro hok
          cases hok
      · obtain ⟨tr, h1, h2, h3⟩ := ih r hr hds'
        have hnil : d.ptr = [] := List.length_eq_zero.mp (by rw [hd.2]; omega)
        refine ⟨⟨tr.status, tr.response, err ++ tr.err⟩, ?_, h2, ?_⟩
        · simp only [curl_easy_perform, hw]
          rw [if_neg hz, h1]
        · intro hok
          obtain ⟨h4, h5, h6⟩ := h3 hok
          refine ⟨h4, ?_, ?_⟩
          · simp only
            rw [h5]
            simp [hnil]
          · show tr.response.size = r.size + (d.ptr ++ (ds.map Delivery.ptr).flatten).length
            rw [h6, hnil]
            simp

theorem initial_response_well_formed (b : Block) (hb : b.alloc = RESPONSE_INITIAL_CAPACITY) :
    well_formed (initial_response b) := by
  refine ⟨⟨b, rfl, hb⟩, ?_, ?_⟩
  · simp only [initial_response, RESPONSE_INITIAL_CAPACITY, SIZE_MAX]
    omega
  · simp only [room_for_terminator, initial_response, RESPONSE_INITIAL_CAPACITY]
    omega

theorem write_response_total (d : Delivery) (r : response) (hr : well_formed r)
    (hd : d.valid) :
    ∃ w, write_response d.ptr d.size d.nmemb r d.heap = Run.ok w ∧ well_formed w.response := by
  by_cases hacc : accepts d r = true
  · obtain ⟨w, hw, _, _, hwf, _⟩ := write_response_accepted d r hr hacc
    exact ⟨w, hw, hwf⟩
  · obtain ⟨err, hw⟩ := write_response_refused d r hd (by simpa using hacc)
    exact ⟨_, hw, hr⟩

/-! ## C1 - C3: the write callback -/

/-- C1: a chunk with element size at least 1 whose byte count `size * nmemb`,
or whose end position `response.size + size * nmemb`, computed over unbounded
integers, exceeds `SIZE_MAX` is rejected: `write_response` returns 0, reports
the overflow, and returns the response object (buffer, size, capacity)
exactly as it received it. -/
theorem write_response_rejects_overflow (ptr : List Byte) (size nmemb : Nat) (r : response)
    (heap : Alloc) (hsize : 1 ≤ size)
    (h : size * nmemb > SIZE_MAX ∨ r.size + size * nmemb > SIZE_MAX) :
    write_response ptr size nmemb r heap =
      Run.ok ⟨0, r, [diag "28" "write_response" "buffer capacity overflowed"]⟩ := by
  apply write_response_rejected ptr size nmemb r heap hsize
  by_contra hov
  have hov' : overflows size nmemb r = false := by simpa using hov
  obtain ⟨_, h2⟩ := (overflows_eq_false_iff size nmemb r hsize).mp hov'
  omega

/-- Witness of C1: a chunk of `SIZE_MAX` elements of 2 bytes on an empty
response. -/
theorem write_response_rejects_overflow_witness :
    1 ≤ 2 ∧ (2 * SIZE_MAX > SIZE_MAX ∨ 0 + 2 * SIZE_MAX > SIZE_MAX) ∧
    write_response [] 2 SIZE_MAX ⟨none, 0, 0⟩ none =
      Run.ok ⟨0, ⟨none, 0, 0⟩, [diag "28" "write_response" "buffer capacity overflowed"]⟩ :=
  ⟨by decide, Or.inl (by decide),
    write_response_rejects_overflow [] 2 SIZE_MAX ⟨none, 0, 0⟩ none (by decide)
      (Or.inl (by decide))⟩

/-- C2: starting from the empty response `request` creates (size 0, capacity
1024, a block of 1024 bytes), for every sequence of calls each of which
`write_response` accepts, the calls return `nmemb * size` one by one, the
final `size` is the sum of the chunk sizes, and the first `size` bytes of the
buffer are the chunks concatenated in delivery order. -/
theorem write_all_accumulates (b : Block) (ds : List Delivery)
    (hb : b.alloc = RESPONSE_INITIAL_CAPACITY)
    (h : all_accepted ds (initial_response b) = true) :
    ∃ r blk, write_all ds (initial_response b) =
        Run.ok (ds.map (fun d => d.nmemb * d.size), r) ∧
      r.size = (ds.map (fun d => d.nmemb * d.size)).sum ∧
      r.buffer = some blk ∧
      (List.range r.size).map blk.data = (ds.map Delivery.ptr).flatten := by
  have hwf := initial_response_well_formed b hb
  obtain ⟨r, h1, h2, h3, ⟨blk, hblk, _⟩, _⟩ := write_all_spec ds (initial_response b) hwf h
  refine ⟨r, blk, h1, ?_, hblk, ?_⟩
  · rw [h2]
    simp [initial_response]
  · have : stored (initial_response b) = [] := by simp [stored, initial_response]
    rw [this] at h3
    simpa [stored, hblk] using h3

/-- Witness of C2: two chunks, `[1, 2]` and `[3]`, on a fresh block. -/
theorem write_all_accumulates_witness :
    ∃ r blk, write_all [⟨[1, 2], 1, 2, none⟩, ⟨[3], 1, 1, none⟩]
          (initial_response ⟨0, 1024, fun _ => 0⟩) = Run.ok ([2, 1], r) ∧
      r.size = 3 ∧ r.buffer = some blk ∧
      (List.range r.size).map blk.data = [1, 2, 3] :=
  write_all_accumulates ⟨0, 1024, fun _ => 0⟩ [⟨[1, 2], 1, 2, none⟩, ⟨[3], 1, 1, none⟩]
    rfl (by decide)

/-- C3: the predicate `size + 1 <= capacity` holds for the response `request`
creates, and every call of `write_response` that starts from a response
satisfying it ends in one satisfying it, whatever the outcome (chunk stored,
chunk rejected, reallocation refused); a call with a valid chunk on a
well-formed response always returns. Hence, once the transport has delivered
its chunks, `capacity >= size + 1`. -/
theorem room_for_terminator_invariant :
    (∀ b : Block, room_for_terminator (initial_response b)) ∧
    (∀ (ptr : List Byte) (size nmemb : Nat) (r : response) (heap : Alloc) (w : Written),
      room_for_terminator r → write_response ptr size nmemb r heap = Run.ok w →
        room_for_terminator w.response) ∧
    (∀ (d : Delivery) (r : response), well_formed r → d.valid →
      ∃ w, write_response d.ptr d.size d.nmemb r d.heap = Run.ok w ∧
        room_for_terminator w.response) ∧
    (∀ (b : Block) (ds : List Delivery) (final : Nat),
      b.alloc = RESPONSE_INITIAL_CAPACITY → (∀ d ∈ ds, d.valid) →
        ∃ tr, curl_easy_perform ds final (initial_response b) = Run.ok tr ∧
          tr.response.size + 1 ≤ tr.response.capacity) := by
  refine ⟨?_, ?_, ?_, ?_⟩
  · intro b
    simp only [room_for_terminator, initial_response, RESPONSE_INITIAL_CAPACITY]
    omega
  · intro ptr size nmemb r heap w hr h
    exact write_response_room ptr size nmemb r heap w hr h
  · intro d r hr hd
    obtain ⟨w, hw, hwf⟩ := write_response_total d r hr hd
    exact ⟨w, hw, hwf.2.2⟩
  · intro b ds final hb hds
    obtain ⟨tr, h1, h2, _⟩ :=
      curl_easy_perform_spec ds final (initial_response b) (initial_response_well_formed b hb) hds
    exact ⟨tr, h1, h2.2.2⟩

/-- Witness of C3: the transport delivers one chunk of one byte to a fresh
response. -/
theorem room_for_terminator_invariant_witness :
    ∃ tr, curl_easy_perform [⟨[7], 1, 1, none⟩] CURLE_OK
        (initial_response ⟨0, 1024, fun _ => 0⟩) = Run.ok tr ∧
      tr.response.size + 1 ≤ tr.response.capacity :=
  room_for_terminator_invariant.2.2.2 ⟨0, 1024, fun _ => 0⟩ [⟨[7], 1, 1, none⟩] CURLE_OK rfl
    (fun d hd => by
      rw [List.mem_singleton] at hd
      subst hd
      exact ⟨by decide, rfl⟩)

/-! ## C4 - C5: `request` -/

theorem terminate_spec (r : response) (shrink : Alloc) (hr : well_formed r) :
    ∃ b0 b, r.buffer = some b0 ∧
      store_byte (match realloc r.buffer (add_size_t r.size 1) shrink with
        | some b => some b
        | none => r.buffer) r.size 0 = Run.ok b ∧
      r.size < b.alloc ∧ b.data r.size = 0 ∧ (∀ i, i < r.size → b.data i = b0.data i) ∧
      (shrink = none → b.addr = b0.addr ∧ b.alloc = b0.alloc) ∧
      (∀ f, shrink = some f → b.addr = f.addr ∧ b.alloc = r.size + 1) := by
  obtain ⟨⟨b0, hb0, halloc⟩, hcap, hroom⟩ := hr
  unfold room_for_terminator at hroom
  have hadd : add_size_t r.size 1 = r.size + 1 := by
    unfold add_size_t to_size_t
    unfold SIZE_MAX at hcap ⊢
    omega
  cases shrink with
  | none =>
    refine ⟨b0, { b0 with data := fun j => if j = r.size then 0 else b0.data j }, hb0, ?_, ?_,
      ?_, ?_, fun _ => ⟨rfl, rfl⟩, fun f hf => by cases hf⟩
    · simp only [realloc, hb0, store_byte]
      rw [if_pos (by omega)]
    · show r.size < b0.alloc
      omega
    · simp
    · intro i hi
      show (if i = r.size then 0 else b0.data i) = b0.data i
      rw [if_neg (by omega)]
  | some f =>
    refine ⟨b0, ⟨f.addr, r.size + 1, fun j => if j = r.size then 0 else
        if j < min b0.alloc (r.size + 1) then b0.data j else f.fresh j⟩, hb0, ?_, ?_, ?_, ?_,
      fun h => (by cases h), fun g hg => ⟨(by cases hg; rfl), rfl⟩⟩
    · simp only [realloc, hb0, store_byte, hadd]
      rw [if_pos (by omega)]
    · show r.size < r.size + 1
      omega
    · simp
    · intro i hi
      show (if i = r.size then 0 else
        if i < min b0.alloc (r.size + 1) then b0.data i else f.fresh i) = b0.data i
      rw [if_neg (by omega), if_pos (by omega)]

theorem malloc_alloc (n : Nat) (a : Alloc) (b : Block) (h : malloc n a = some b) :
    b.alloc = n := by
  unfold malloc at h
  split at h
  · cases h
  · injection h with h
    subst h
    rfl

theorem request_of_transfer (url : String) (t : Transport) (b : Block) (tr : Transfer)
    (hinit : t.init = true) (hm : malloc RESPONSE_INITIAL_CAPACITY t.buffer = some b)
    (htr : curl_easy_perform t.deliveries t.result (initial_response b) = Run.ok tr) :
    request url t =
      if tr.status ≠ CURLE_OK then
        Run.ok ⟨none, free tr.response.buffer,
          tr.err ++ [diag "114" "request"
            ("failed to get data from " ++ url ++ ": " ++ t.strerror tr.status)]⟩
      else if t.code ≠ RESPONSE_CODE_OK then
        Run.ok ⟨none, free tr.response.buffer,
          tr.err ++ [diag "133" "request" ("server responded with code " ++ toString t.code)]⟩
      else
        match store_byte (match realloc tr.response.buffer (add_size_t tr.response.size 1)
            t.shrink with
          | some b => some b
          | none => tr.response.buffer) tr.response.size 0 with
        | Run.fault f => Run.fault f
        | Run.ok b => Run.ok ⟨some b, [], tr.err⟩ := by
  unfold request
  simp only [hinit, hm, htr, Bool.not_true, Bool.false_eq_true, if_false]

/-- C4: whatever the transport does (with valid chunks), `request` returns,
and it returns a buffer exactly when the handle was initialised, the initial
allocation succeeded, `curl_easy_perform` returned `CURLE_OK` and the HTTP
status is 200. In particular any other HTTP status (404, 500, ...) and any
transfer that does not end with `CURLE_OK` give `NULL`. -/
theorem request_returns_buffer_iff (url : String) (t : Transport)
    (hds : ∀ d ∈ t.deliveries, d.valid) :
    ∃ f, request url t = Run.ok f ∧
      (f.ret.isSome = true ↔
        t.init = true ∧
        ∃ b, malloc RESPONSE_INITIAL_CAPACITY t.buffer = some b ∧
          ∃ tr, curl_easy_perform t.deliveries t.result (initial_response b) = Run.ok tr ∧
            tr.status = CURLE_OK ∧ t.code = 200) ∧
      (t.code ≠ 200 → f.ret = none) ∧ (t.result ≠ CURLE_OK → f.ret = none) := by
  cases hinit : t.init with
  | false =>
    refine ⟨_, by simp only [request, hinit]; rfl, ?_, fun _ => rfl, fun _ => rfl⟩
    simp
  | true =>
    cases hm : malloc RESPONSE_INITIAL_CAPACITY t.buffer with
    | none =>
      refine ⟨_, by simp only [request, hinit, hm]; rfl, ?_, fun _ => rfl, fun _ => rfl⟩
      simp
    | some b =>
      obtain ⟨tr, htr, hwf, hok⟩ := curl_easy_perform_spec t.deliveries t.result
        (initial_response b)
        (initial_response_well_formed b (malloc_alloc _ _ _ hm)) hds
      rw [request_of_transfer url t b tr hinit hm htr]
      by_cases hs : tr.status ≠ CURLE_OK
      · rw [if_pos hs]
        refine ⟨_, rfl, ?_, fun _ => rfl, fun _ => rfl⟩
        simp only [Option.isSome_none, Bool.false_eq_true, true_and, false_iff, not_exists,
          not_and]
        intro b' hb' tr' htr' hs'
        cases hb'
        rw [htr] at htr'
        cases htr'
        exact absurd hs' hs
      · rw [if_neg hs]
        have hs' : tr.status = CURLE_OK := by simpa using hs
        by_cases hcode : t.code ≠ RESPONSE_CODE_OK
        · rw [if_pos hcode]
          refine ⟨_, rfl, ?_, fun _ => rfl, fun _ => rfl⟩
          simp only [Option.isSome_none, Bool.false_eq_true, true_and, false_iff, not_exists,
            not_and]
          intro b' hb' tr' htr' _
          exact hcode
        · rw [if_neg hcode]
          have hcode' : t.code = 200 := by simpa [RESPONSE_CODE_OK] using hcode
          obtain ⟨b0, b1, _, hstore, _⟩ := terminate_spec tr.response t.shrink hwf
          rw [hstore]
          refine ⟨_, rfl, ?_, fun h => absurd hcode' h, fun h => absurd (hok hs').1 h⟩
          simp only [Option.isSome_some, true_and, true_iff]
          exact ⟨b, rfl, tr, htr, hs', hcode'⟩

/-- Witness of C4: one two-byte chunk, transfer OK, HTTP status 200. -/
theorem request_returns_buffer_iff_witness :
    ∃ f, request "u" ⟨true, some ⟨0, fun _ => 0⟩, [⟨[104, 105], 1, 2, none⟩], CURLE_OK,
        fun _ => "", 200, none⟩ = Run.ok f ∧
      (f.ret.isSome = true ↔
        true = true ∧
        ∃ b, malloc RESPONSE_INITIAL_CAPACITY (some ⟨0, fun _ => 0⟩) = some b ∧
          ∃ tr, curl_easy_perform [⟨[104, 105], 1, 2, none⟩] CURLE_OK (initial_response b) =
              Run.ok tr ∧
            tr.status = CURLE_OK ∧ (200 : Int) = 200) ∧
      ((200 : Int) ≠ 200 → f.ret = none) ∧ (CURLE_OK ≠ CURLE_OK → f.ret = none) :=
  request_returns_buffer_iff "u" ⟨true, some ⟨0, fun _ => 0⟩, [⟨[104, 105], 1, 2, none⟩],
      CURLE_OK, fun _ => "", 200, none⟩
    (fun d hd => by
      rw [List.mem_singleton] at hd
      subst hd
      exact ⟨by decide, rfl⟩)

/-- C5: whenever `request` returns a buffer, its first `S` bytes are the body
(the chunks in delivery order, `S` bytes in all), the byte at index `S` is
zero, and index `S` lies inside the block that is returned. This holds when
the final `realloc` to `S + 1` bytes succeeds (the block returned is the new
one, of `S + 1` bytes) and when it fails (the block returned is the one the
transfer left, and `request` still returns it). -/
theorem request_body_terminated (url : String) (t : Transport)
    (hds : ∀ d ∈ t.deliveries, d.valid) :
    ∃ f, request url t = Run.ok f ∧
      ∀ b, f.ret = some b →
        (List.range (t.deliveries.map Delivery.ptr).flatten.length).map b.data =
            (t.deliveries.map Delivery.ptr).flatten ∧
          b.data (t.deliveries.map Delivery.ptr).flatten.length = 0 ∧
          (t.deliveries.map Delivery.ptr).flatten.length < b.alloc ∧
          (∀ g, t.shrink = some g →
            b.addr = g.addr ∧ b.alloc = (t.deliveries.map Delivery.ptr).flatten.length + 1) ∧
          (t.shrink = none →
            ∃ b0 tr b1, malloc RESPONSE_INITIAL_CAPACITY t.buffer = some b0 ∧
              curl_easy_perform t.deliveries t.result (initial_response b0) = Run.ok tr ∧
              tr.response.buffer = some b1 ∧ b.addr = b1.addr ∧ b.alloc = b1.alloc) := by
  cases hinit : t.init with
  | false =>
    refine ⟨_, by simp only [request, hinit]; rfl, ?_⟩
    intro b hb
    cases hb
  | true =>
    cases hm : malloc RESPONSE_INITIAL_CAPACITY t.buffer with
    | none =>
      refine ⟨_, by simp only [request, hinit, hm]; rfl, ?_⟩
      intro b hb
      cases hb
    | some b0 =>
      obtain ⟨tr, htr, hwf, hok⟩ := curl_easy_perform_spec t.deliveries t.result
        (initial_response b0)
        (initial_response_well_formed b0 (malloc_alloc _ _ _ hm)) hds
      rw [request_of_transfer url t b0 tr hinit hm htr]
      by_cases hs : tr.status ≠ CURLE_OK
      · rw [if_pos hs]
        exact ⟨_, rfl, fun b hb => by cases hb⟩
      · rw [if_neg hs]
        have hs' : tr.status = CURLE_OK := by simpa using hs
        by_cases hcode : t.code ≠ RESPONSE_CODE_OK
        · rw [if_pos hcode]
          exact ⟨_, rfl, fun b hb => by cases hb⟩
        · rw [if_neg hcode]
          obtain ⟨b1, b2, hb1, hstore, hlt, hzero, hkeep, hnone, hsome⟩ :=
            terminate_spec tr.response t.shrink hwf
          obtain ⟨_, hst, hsz⟩ := hok hs'
          have hsz' : tr.response.size = (t.deliveries.map Delivery.ptr).flatten.length := by
            rw [hsz]
            simp [initial_response]
          rw [hstore]
          refine ⟨_, rfl, ?_⟩
          intro b hb
          injection hb with hb
          subst hb
          rw [← hsz']
          refine ⟨?_, hzero, hlt, hsome, fun h => ⟨b0, tr, b1, rfl, htr, hb1, hnone h⟩⟩
          have h0 : stored (initial_response b0) = [] := by simp [stored, initial_response]
          rw [h0] at hst
          simp only [stored, hb1, List.nil_append] at hst
          rw [← hst]
          apply List.map_congr_left
          intro i hi
          rw [List.mem_range] at hi
          exact hkeep i hi

/-- Witness of C5: one two-byte chunk, transfer OK, HTTP status 200, the
final `realloc` refused. -/
theorem request_body_terminated_witness :
    ∃ f, request "u" ⟨true, some ⟨0, fun _ => 0⟩, [⟨[104, 105], 1, 2, none⟩], CURLE_OK,
        fun _ => "", 200, none⟩ = Run.ok f ∧
      ∀ b, f.ret = some b →
        (List.range 2).map b.data = [104, 105] ∧ b.data 2 = 0 ∧ 2 < b.alloc ∧
          (∀ g, (none : Alloc) = some g → b.addr = g.addr ∧ b.alloc = 2 + 1) ∧
          ((none : Alloc) = none →
            ∃ b0 tr b1, malloc RESPONSE_INITIAL_CAPACITY (some ⟨0, fun _ => 0⟩) = some b0 ∧
              curl_easy_perform [⟨[104, 105], 1, 2, none⟩] CURLE_OK (initial_response b0) =
                Run.ok tr ∧
              tr.response.buffer = some b1 ∧ b.addr = b1.addr ∧ b.alloc = b1.alloc) :=
  request_body_terminated "u" ⟨true, some ⟨0, fun _ => 0⟩, [⟨[104, 105], 1, 2, none⟩],
      CURLE_OK, fun _ => "", 200, none⟩
    (fun d hd => by
      rw [List.mem_singleton] at hd
      subst hd
      exact ⟨by decide, rfl⟩)

/-! ## The report of `main` -/

theorem fmt_s_string_value (json : Option Json) (h : json_is_string json = true) :
    fmt_s (json_string_value json) = Run.ok (unit_text json) := by
  unfold json_is_string at h
  split at h
  · rfl
  · cases h

theorem main_report_eq (c : Libc) (root : Json) :
    main_report c root = Run.ok (spec_report c root) := by
  unfold main_report spec_report first_failure validation_order
  cases h1 : json_is_object
      (json_object_get (some root) "current")
  · simp [Check.passes, member, checks_before, validation_order, lines_of, Check.line,
      Check.diagnostic, fmt_s_string_value, h1]
  cases h2 : json_is_object
      (json_object_get (some root) "current_units")
  · simp [Check.passes, member, checks_before, validation_order, lines_of, Check.line,
      Check.diagnostic, fmt_s_string_value, h1, h2]
  cases h3 : json_is_number
      (json_object_get (json_object_get (some root) "current") "temperature_2m")
  · simp [Check.passes, member, checks_before, validation_order, lines_of, Check.line,
      Check.diagnostic, fmt_s_string_value, h1, h2, h3]
  cases h4 : json_is_string
      (json_object_get (json_object_get (some root) "current_units") "temperature_2m")
  · simp [Check.passes, member, checks_before, validation_order, lines_of, Check.line,
      Check.diagnostic, fmt_s_string_value, h1, h2, h3, h4]
  cases h5 : json_is_number
      (json_object_get (json_object_get (some root) "current") "apparent_temperature")
  · simp [Check.passes, member, checks_before, validation_order, lines_of, Check.line,
      Check.diagnostic, fmt_s_string_value, h1, h2, h3, h4, h5]
  cases h6 : json_is_string
      (json_object_get (json_object_get (some root) "current_units") "apparent_temperature")
  · simp [Check.passes, member, checks_before, validation_order, lines_of, Check.line,
      Check.diagnostic, fmt_s_string_value, h1, h2, h3, h4, h5, h6]
  cases h7 : json_is_object
      (json_object_get (some root) "daily")
  · simp [Check.passes, member, checks_before, validation_order, lines_of, Check.line,
      Check.diagnostic, fmt_s_string_value, h1, h2, h3, h4, h5, h6, h7]
  cases h8 : json_is_object
      (json_object_get (some root) "daily_units")
  · simp [Check.passes, member, checks_before, validation_order, lines_of, Check.line,
      Check.diagnostic, fmt_s_string_value, h1, h2, h3, h4, h5, h6, h7,
      h8]
  cases h9 : json_is_number
      (json_array_get (json_object_get (json_object_get (some root) "daily") "temperature_2m_max") 0)
  · simp [Check.passes, member, checks_before, validation_order, lines_of, Check.line,
      Check.diagnostic, fmt_s_string_value, h1, h2, h3, h4, h5, h6, h7,
      h8, h9]
  cases h10 : json_is_string
      (json_object_get (json_object_get (some root) "daily_units") "temperature_2m_max")
  · simp [Check.passes, member, checks_before, validation_order, lines_of, Check.line,
      Check.diagnostic, fmt_s_string_value, h1, h2, h3, h4, h5, h6, h7,
      h8, h9, h10]
  cases h11 : json_is_number
      (json_array_get (json_object_get (json_object_get (some root) "daily") "temperature_2m_min") 0)
  · simp [Check.passes, member, checks_before, validation_order, lines_of, Check.line,
      Check.diagnostic, fmt_s_string_value, h1, h2, h3, h4, h5, h6, h7,
      h8, h9, h10, h11]
  cases h12 : json_is_string
      (json_object_get (json_object_get (some root) "daily_units") "temperature_2m_min")
  · simp [Check.passes, member, checks_before, validation_order, lines_of, Check.line,
      Check.diagnostic, fmt_s_string_value, h1, h2, h3, h4, h5, h6, h7,
      h8, h9, h10, h11, h12]
  cases h13 : json_is_integer
      (json_object_get (json_object_get (some root) "current") "relative_humidity_2m")
  · simp [Check.passes, member, checks_before, validation_order, lines_of, Check.line,
      Check.diagnostic, fmt_s_string_value, h1, h2, h3, h4, h5, h6, h7,
      h8, h9, h10, h11, h12, h13]
  cases h14 : json_is_string
      (json_object_get (json_object_get (some root) "current_units") "relative_humidity_2m")
  · simp [Check.passes, member, checks_before, validation_order, lines_of, Check.line,
      Check.diagnostic, fmt_s_string_value, h1, h2, h3, h4, h5, h6, h7,
      h8, h9, h10, h11, h12, h13, h14]
  simp [Check.passes, member, lines_of, Check.line, fmt_s_string_value, h1, h2, h3, h4, h5, h6, h7,
    h8, h9, h10, h11, h12, h13, h14]

theorem first_failure_eq_none_iff (root : Json) :
    first_failure root = none ↔ valid_weather root := by
  simp only [first_failure, validation_order, List.find?_eq_none, List.mem_cons,
    List.mem_singleton, List.not_mem_nil, or_false, forall_eq_or_imp, forall_eq, Check.passes,
    valid_weather, Bool.not_eq_true', Bool.not_eq_false]
  tauto

theorem find_some_takeWhile {α : Type} [DecidableEq α] (p : α → Bool) (l : List α) (k : α)
    (h : l.find? p = some k) :
    p k = true ∧ ∀ j ∈ l.takeWhile (fun j => decide (j ≠ k)), p j = false := by
  induction l with
  | nil => simp at h
  | cons a l ih =>
    rw [List.find?_cons] at h
    cases hp : p a with
    | true =>
      rw [hp] at h
      injection h with h
      subst h
      refine ⟨hp, ?_⟩
      intro j hj
      simp [List.takeWhile] at hj
    | false =>
      rw [hp] at h
      obtain ⟨h1, h2⟩ := ih h
      refine ⟨h1, ?_⟩
      intro j hj
      rw [List.takeWhile_cons] at hj
      split at hj
      · rcases List.mem_cons.mp hj with rfl | hj'
        · exact hp
        · exact h2 j hj'
      · simp at hj

theorem main_report_of_failure (c : Libc) (root : Json) (k : Check)
    (hk : first_failure root = some k) :
    main_report c root =
      Run.ok ⟨EXIT_FAILURE, lines_of c root (checks_before k), [k.diagnostic]⟩ := by
  rw [main_report_eq, spec_report, hk]

theorem main_report_of_valid (c : Libc) (root : Json) (h : valid_weather root) :
    main_report c root = Run.ok ⟨EXIT_SUCCESS, lines_of c root validation_order, []⟩ := by
  rw [main_report_eq, spec_report, (first_failure_eq_none_iff root).mpr h]

theorem first_failure_of_invalid (root : Json) (h : ¬ valid_weather root) :
    ∃ k, first_failure root = some k := by
  cases hf : first_failure root with
  | none => exact absurd ((first_failure_eq_none_iff root).mp hf) h
  | some k => exact ⟨k, rfl⟩

theorem second_char_ne (p q a b : String) (cp cq : Char) (hp : p.data[1]? = some cp)
    (hq : q.data[1]? = some cq) (hne : cp ≠ cq) : p ++ a ≠ q ++ b := by
  intro h
  have h1 := congrArg (fun s => s.data[1]?) h
  simp only [String.data_append] at h1
  have lp : 1 < p.data.length := by
    cases hl : p.data with
    | nil => rw [hl] at hp; cases hp
    | cons x xs =>
      cases xs with
      | nil => rw [hl] at hp; cases hp
      | cons y ys => simp
  have lq : 1 < q.data.length := by
    cases hl : q.data with
    | nil => rw [hl] at hq; cases hq
    | cons x xs =>
      cases xs with
      | nil => rw [hl] at hq; cases hq
      | cons y ys => simp
  rw [List.getElem?_append_left lp, List.getElem?_append_left lq, hp, hq] at h1
  injection h1 with h1
  exact hne h1

theorem temperature_line_ne (x u y v : String) :
    "\tMaximum Temperature: " ++ x ++ u ++ "\n" ≠ "\tTemperature: " ++ y ++ v ++ "\n" ∧
    "\tMinimum Temperature: " ++ x ++ u ++ "\n" ≠ "\tTemperature: " ++ y ++ v ++ "\n" := by
  constructor
  · rw [String.append_assoc, String.append_assoc, String.append_assoc, String.append_assoc]
    exact second_char_ne _ _ _ _ 'M' 'T' rfl rfl (by decide)
  · rw [String.append_assoc, String.append_assoc, String.append_assoc, String.append_assoc]
    exact second_char_ne _ _ _ _ 'M' 'T' rfl rfl (by decide)

/-! ## Runs of `main` -/

theorem accepts_empty_chunk (d : Delivery) (r : response) (hr : well_formed r) (hd : d.valid)
    (hsz : d.size ≤ SIZE_MAX) (h0 : d.size * d.nmemb = 0) : accepts d r = true := by
  obtain ⟨_, hcap, hroom⟩ := hr
  unfold room_for_terminator at hroom
  obtain ⟨hsize, hlen⟩ := hd
  have hn : d.nmemb = 0 := by
    rcases Nat.mul_eq_zero.mp h0 with h | h
    · omega
    · exact h
  have hdiv : 0 < SIZE_MAX / d.size := Nat.div_pos hsz (by omega)
  have hov : overflows d.size d.nmemb r = false := by
    rw [overflows_eq_false_iff d.size d.nmemb r hsize, h0, hn]
    exact ⟨hdiv, by omega⟩
  obtain ⟨_, hadd, _⟩ := size_t_of_accepted d.size d.nmemb r hsize hov
  unfold accepts
  rw [hov, hadd]
  simp only [Bool.and_eq_true, Bool.or_eq_true, decide_eq_true_eq, Bool.not_false]
  exact ⟨⟨⟨hsize, hlen⟩, trivial⟩, Or.inl (by omega)⟩

theorem curl_easy_perform_quiet (ds : List Delivery) (final : Nat) (r : response)
    (tr : Transfer) (hr : well_formed r) (hds : ∀ d ∈ ds, d.valid ∧ d.size ≤ SIZE_MAX)
    (h : curl_easy_perform ds final r = Run.ok tr) (hs : tr.status = CURLE_OK) :
    tr.err = [] := by
  induction ds generalizing r tr with
  | nil =>
    simp only [curl_easy_perform] at h
    injection h with h
    subst h
    rfl
  | cons d ds ih =>
    obtain ⟨hd, hsz⟩ := hds d (List.mem_cons_self _ _)
    have hds' : ∀ e ∈ ds, e.valid ∧ e.size ≤ SIZE_MAX :=
      fun e he => hds e (List.mem_cons_of_mem _ he)
    have hc : d.nmemb * d.size = d.size * d.nmemb := Nat.mul_comm _ _
    by_cases hacc : accepts d r = true
    · obtain ⟨w, hw, hret, _, hwf, _, _, herr⟩ := write_response_accepted d r hr hacc
      simp only [curl_easy_perform, hw] at h
      rw [if_neg (by omega)] at h
      split at h
      · cases h
      · rename_i t ht
        injection h with h
        subst h
        have := ih w.response t hwf hds' ht hs
        simp only [herr, this, List.append_nil]
    · have hnz : 0 ≠ d.size * d.nmemb := by
        intro h0
        exact hacc (accepts_empty_chunk d r hr hd hsz h0.symm)
      obtain ⟨err, hw⟩ := write_response_refused d r hd (by simpa using hacc)
      simp only [curl_easy_perform, hw] at h
      rw [if_pos hnz] at h
      injection h with h
      subst h
      cases hs

theorem c_string_from_some (data : Nat → Byte) (k i j : Nat) (h1 : i ≤ j) (h2 : j < i + k)
    (h0 : data j = 0) : ∃ text, c_string_from data k i = some text := by
  induction k generalizing i with
  | zero => omega
  | succ k ih =>
    rw [c_string_from]
    by_cases hz : data i = 0
    · rw [if_pos hz]
      exact ⟨_, rfl⟩
    · rw [if_neg hz]
      have hij : i ≠ j := by
        intro h
        subst h
        exact hz h0
      obtain ⟨text, ht⟩ := ih (i + 1) (by omega) (by omega)
      rw [ht]
      exact ⟨_, rfl⟩

theorem request_quiet (url : String) (t : Transport)
    (hds : ∀ d ∈ t.deliveries, d.valid ∧ d.size ≤ SIZE_MAX) :
    ∃ f, request url t = Run.ok f ∧
      ∀ b, f.ret = some b → f.err = [] ∧ ∃ text, c_string b = Run.ok text := by
  have hds' : ∀ d ∈ t.deliveries, d.valid := fun d hd => (hds d hd).1
  cases hinit : t.init with
  | false => exact ⟨_, by simp only [request, hinit]; rfl, fun b hb => by cases hb⟩
  | true =>
    cases hm : malloc RESPONSE_INITIAL_CAPACITY t.buffer with
    | none => exact ⟨_, by simp only [request, hinit, hm]; rfl, fun b hb => by cases hb⟩
    | some b0 =>
      have hwf0 := initial_response_well_formed b0 (malloc_alloc _ _ _ hm)
      obtain ⟨tr, htr, hwf, _⟩ := curl_easy_perform_spec t.deliveries t.result
        (initial_response b0) hwf0 hds'
      rw [request_of_transfer url t b0 tr hinit hm htr]
      by_cases hs : tr.status ≠ CURLE_OK
      · rw [if_pos hs]
        exact ⟨_, rfl, fun b hb => by cases hb⟩
      · rw [if_neg hs]
        have hs' : tr.status = CURLE_OK := by simpa using hs
        by_cases hcode : t.code ≠ RESPONSE_CODE_OK
        · rw [if_pos hcode]
          exact ⟨_, rfl, fun b hb => by cases hb⟩
        · rw [if_neg hcode]
          obtain ⟨b1, b2, _, hstore, hlt, hzero, _⟩ := terminate_spec tr.response t.shrink hwf
          rw [hstore]
          refine ⟨_, rfl, ?_⟩
          intro b hb
          injection hb with hb
          subst hb
          refine ⟨curl_easy_perform_quiet _ _ _ _ hwf0 hds htr hs', ?_⟩
          obtain ⟨text, ht⟩ := c_string_from_some b2.data b2.alloc 0 tr.response.size
            (by omega) (by omega) hzero
          exact ⟨text, by simp only [c_string, ht]⟩

theorem spec_report_status (c : Libc) (root : Json) :
    ((spec_report c root).status = EXIT_SUCCESS ↔ (spec_report c root).err = []) ∧
    ((spec_report c root).status = EXIT_SUCCESS ∨ (spec_report c root).status = EXIT_FAILURE) := by
  unfold spec_report
  cases first_failure root with
  | none => exact ⟨⟨fun _ => rfl, fun _ => rfl⟩, Or.inl rfl⟩
  | some k =>
    refine ⟨⟨fun h => ?_, fun h => ?_⟩, Or.inr rfl⟩
    · exact absurd (show EXIT_FAILURE = EXIT_SUCCESS from h) (by decide)
    · cases h

/-! ## C6 - C10: `get_location` and `main` -/

/-- C6 (the code departs from the claim): when the geolocation service
answers with a document that has no `loc` member (here the empty object),
`get_location` hands the null result of `json_string_value` to `sscanf`: the
run leaves defined behaviour instead of reporting a failure and returning the
zero location. -/
theorem get_location_scans_absent_loc :
    json_is_string (json_object_get (some (Json.object [])) "loc") = false ∧
    get_location world_without_loc = Run.fault Fault.null_pointer := by
  decide

set_option maxRecDepth 100000 in
/-- C7, counterexample: the geolocation fetch fails (HTTP 500), two
diagnostics are written, and `main` still ends with status 0 after printing
the report for the zero location. -/
theorem main_succeeds_after_location_failure :
    main world_location_down =
      Run.ok ⟨0,
        ["Location:\n\tLatitude: 0\n\tLongitude: 0\n\n", "Weather:\n",
         "\tTemperature: 21C\n", "\tApparent Temperature: 20C\n",
         "\tMaximum Temperature: 25C\n", "\tMinimum Temperature: 15C\n",
         "\tRelative Humidity: 40%\n"],
        ["error: source/main.c:133: request: server responded with code 500\n",
         "error: source/main.c:172: get_location: failed to get location\n"]⟩ := by
  decide

/-- C7, amended: in a run in which `get_location` returns, `main` returns,
and its exit status is `EXIT_FAILURE` exactly when a failure is reported
after `get_location` has returned (URL allocation, weather fetch, JSON parse,
validation), `EXIT_SUCCESS` otherwise. The failures `get_location` reported
stay at the head of the error output and do not enter the status: `main`
goes on with the location it was given. -/
theorem main_status_ignores_location_failure (w : World) (located : Located)
    (hnet : ∀ url, ∀ d ∈ (w.weather_net url).deliveries, d.valid ∧ d.size ≤ SIZE_MAX)
    (hloc : get_location w = Run.ok located) :
    ∃ e later, main w = Run.ok e ∧ e.err = located.err ++ later ∧
      (e.status = EXIT_SUCCESS ↔ later = []) ∧
      (e.status = EXIT_SUCCESS ∨ e.status = EXIT_FAILURE) := by
  unfold main
  rw [hloc]
  simp only
  cases hm : malloc ((WEATHER_URL w.libc located.value).utf8ByteSize + 1) w.url_heap with
  | none =>
    refine ⟨_, _, rfl, rfl, ⟨fun h => ?_, fun h => ?_⟩, Or.inr rfl⟩
    · exact absurd (show EXIT_FAILURE = EXIT_SUCCESS from h) (by decide)
    · cases h
  | some blk =>
    obtain ⟨f, hf, hret⟩ := request_quiet (WEATHER_URL w.libc located.value)
      (w.weather_net (WEATHER_URL w.libc located.value)) (hnet _)
    simp only [hf]
    cases hr : f.ret with
    | none =>
      refine ⟨_, f.err ++ [diag "257" "main" "failed to get weather"], rfl,
        by simp only [List.append_assoc], ⟨fun h => ?_, fun h => ?_⟩, Or.inr rfl⟩
      · exact absurd (show EXIT_FAILURE = EXIT_SUCCESS from h) (by decide)
      · simp at h
    | some b =>
      obtain ⟨herr, text, htext⟩ := hret b hr
      simp only [htext]
      rcases hj : w.json_loads text with ⟨_ | root, error⟩
      · refine ⟨_, f.err ++ [diag "272" "main"
            ("failed to parse json: " ++ toString error.line ++ ":" ++
              toString error.column ++ ": " ++ error.text)], rfl,
          by simp only [List.append_assoc], ⟨fun h => ?_, fun h => ?_⟩, Or.inr rfl⟩
        · exact absurd (show EXIT_FAILURE = EXIT_SUCCESS from h) (by decide)
        · simp at h
      · simp only [main_report_eq]
        obtain ⟨hiff, hor⟩ := spec_report_status w.libc root
        refine ⟨_, (spec_report w.libc root).err, rfl, ?_, hiff, hor⟩
        simp only [herr, List.append_nil]

set_option maxRecDepth 100000 in
/-- Witness of C7 (amended): the run in which the geolocation service
answers HTTP 500. -/
theorem main_status_ignores_location_failure_witness :
    ∃ e later, main world_location_down = Run.ok e ∧
      e.err = ["error: source/main.c:133: request: server responded with code 500\n",
        "error: source/main.c:172: get_location: failed to get location\n"] ++ later ∧
      (e.status = EXIT_SUCCESS ↔ later = []) ∧
      (e.status = EXIT_SUCCESS ∨ e.status = EXIT_FAILURE) :=
  main_status_ignores_location_failure world_location_down
    ⟨location.zero,
      ["error: source/main.c:133: request: server responded with code 500\n",
       "error: source/main.c:172: get_location: failed to get location\n"]⟩
    (fun _ d hd => by
      have h : d = ⟨ascii example_weather_text, 1, (ascii example_weather_text).length, none⟩ :=
        List.mem_singleton.mp hd
      subst h
      exact ⟨⟨by decide, by simp⟩, by decide⟩)
    (by decide)

/-- C8, counterexample: with `current.relative_humidity_2m` missing, the
lines of both daily fields are printed before the failure is found. -/
theorem main_report_prints_daily_without_humidity :
    json_is_integer (member example_weather_without_humidity "current"
      "relative_humidity_2m") = false ∧
    main_report example_libc example_weather_without_humidity =
      Run.ok ⟨1,
        ["\tTemperature: 21C\n", "\tApparent Temperature: 20C\n",
         "\tMaximum Temperature: 25C\n", "\tMinimum Temperature: 15C\n"],
        ["error: source/main.c:482: main: current doesn't contain relative_humidity_2m\n"]⟩ := by
  decide

/-- C8, amended: when `current.temperature_2m` or
`current.apparent_temperature` is missing or is no number, the report part of
`main` fails having printed nothing or only the Temperature line; neither the
Maximum Temperature line nor the Minimum Temperature line is printed. -/
theorem main_report_no_daily_output (c : Libc) (root : Json)
    (h : json_is_number (member root "current" "temperature_2m") = false ∨
      json_is_number (member root "current" "apparent_temperature") = false) :
    ∃ e, main_report c root = Run.ok e ∧ e.status = EXIT_FAILURE ∧
      (e.out = [] ∨ e.out = lines_of c root [Check.temperature_unit]) ∧
      ∀ x u, "\tMaximum Temperature: " ++ x ++ u ++ "\n" ∉ e.out ∧
        "\tMinimum Temperature: " ++ x ++ u ++ "\n" ∉ e.out := by
  have key : ∃ k, first_failure root = some k ∧
      (lines_of c root (checks_before k) = [] ∨
        lines_of c root (checks_before k) = lines_of c root [Check.temperature_unit]) := by
    unfold first_failure validation_order
    cases h1 : json_is_object (json_object_get (some root) "current")
    · exact ⟨Check.current, by simp [Check.passes, h1], Or.inl rfl⟩
    cases h2 : json_is_object (json_object_get (some root) "current_units")
    · exact ⟨Check.current_units, by simp [Check.passes, h1, h2], Or.inl rfl⟩
    cases h3 : json_is_number (member root "current" "temperature_2m")
    · exact ⟨Check.temperature, by simp [Check.passes, h1, h2, h3], Or.inl rfl⟩
    cases h4 : json_is_string (member root "current_units" "temperature_2m")
    · exact ⟨Check.temperature_unit, by simp [Check.passes, h1, h2, h3, h4], Or.inl rfl⟩
    cases h5 : json_is_number (member root "current" "apparent_temperature")
    · exact ⟨Check.apparent_temperature, by simp [Check.passes, h1, h2, h3, h4, h5],
        Or.inr rfl⟩
    rw [h3, h5] at h
    simp at h
  obtain ⟨k, hk, hout⟩ := key
  refine ⟨_, main_report_of_failure c root k hk, rfl, hout, ?_⟩
  intro x u
  show _ ∉ lines_of c root (checks_before k) ∧ _ ∉ lines_of c root (checks_before k)
  rcases hout with hout | hout
  · rw [hout]
    simp
  · rw [hout]
    simp only [lines_of, List.filterMap_cons, Check.line, List.filterMap_nil,
      List.mem_singleton]
    exact temperature_line_ne x u _ _

/-- Witness of C8 (amended): a document whose `current` is an empty
object. -/
theorem main_report_no_daily_output_witness :
    ∃ e, main_report example_libc (Json.object [("current", Json.object [])]) = Run.ok e ∧
      e.status = EXIT_FAILURE ∧
      (e.out = [] ∨ e.out = lines_of example_libc (Json.object [("current", Json.object [])])
        [Check.temperature_unit]) ∧
      ∀ x u, "\tMaximum Temperature: " ++ x ++ u ++ "\n" ∉ e.out ∧
        "\tMinimum Temperature: " ++ x ++ u ++ "\n" ∉ e.out :=
  main_report_no_daily_output example_libc (Json.object [("current", Json.object [])])
    (Or.inl (by decide))

/-- C9: on a document that fails validation, the report part of `main` stops
at the first failing check `k` of the fixed order (`k` fails, every check
before it passes): it writes the one diagnostic of `k`, prints exactly the
lines of the value/unit pairs completed before `k`, and returns
`EXIT_FAILURE`, which is not zero. -/
theorem main_report_stops_at_first_failure (c : Libc) (root : Json)
    (h : ¬ valid_weather root) :
    ∃ k, k ∈ validation_order ∧ k.passes root = false ∧
      (∀ j ∈ checks_before k, j.passes root = true) ∧
      main_report c root =
        Run.ok ⟨EXIT_FAILURE, lines_of c root (checks_before k), [k.diagnostic]⟩ ∧
      EXIT_FAILURE ≠ 0 := by
  obtain ⟨k, hk⟩ := first_failure_of_invalid root h
  have hk' : validation_order.find? (fun j => !Check.passes root j) = some k := hk
  obtain ⟨h1, h2⟩ := find_some_takeWhile (fun j => !Check.passes root j) validation_order k hk'
  refine ⟨k, List.mem_of_find?_eq_some hk', by simpa using h1, ?_,
    main_report_of_failure c root k hk, by decide⟩
  intro j hj
  simpa using h2 j hj

/-- Witness of C9: the document without `current.relative_humidity_2m`. -/
theorem main_report_stops_at_first_failure_witness :
    ∃ k, k ∈ validation_order ∧ k.passes example_weather_without_humidity = false ∧
      (∀ j ∈ checks_before k, j.passes example_weather_without_humidity = true) ∧
      main_report example_libc example_weather_without_humidity =
        Run.ok ⟨EXIT_FAILURE,
          lines_of example_libc example_weather_without_humidity (checks_before k),
          [k.diagnostic]⟩ ∧
      EXIT_FAILURE ≠ 0 :=
  main_report_stops_at_first_failure example_libc example_weather_without_humidity
    (by decide)

/-- C10: on every document the report part of `main` returns (it never reads
through a null pointer), and it succeeds, printing all five report lines and
returning `EXIT_SUCCESS`, exactly when the document is the one the
specification expects (`valid_weather`); otherwise it returns
`EXIT_FAILURE` with one diagnostic and fewer than five lines. -/
theorem main_report_succeeds_iff (c : Libc) (root : Json) :
    ∃ e, main_report c root = Run.ok e ∧
      (e.status = EXIT_SUCCESS ↔ valid_weather root) ∧
      (valid_weather root →
        e.out = lines_of c root validation_order ∧ e.out.length = 5 ∧ e.err = []) ∧
      (¬ valid_weather root →
        e.status = EXIT_FAILURE ∧ ∃ k : Check, e.err = [k.diagnostic]) := by
  by_cases h : valid_weather root
  · refine ⟨_, main_report_of_valid c root h, ?_, ?_, fun h' => absurd h h'⟩
    · exact ⟨fun _ => h, fun _ => rfl⟩
    · intro _
      exact ⟨rfl, rfl, rfl⟩
  · obtain ⟨k, hk⟩ := first_failure_of_invalid root h
    refine ⟨_, main_report_of_failure c root k hk, ?_, fun h' => absurd h' h, ?_⟩
    · constructor
      · intro h'
        exact absurd (show EXIT_FAILURE = EXIT_SUCCESS from h') (by decide)
      · intro h'
        exact absurd h' h
    · intro _
      exact ⟨rfl, k, rfl⟩

/-- Witness of C10: the complete weather document. -/
theorem main_report_succeeds_iff_witness :
    ∃ e, main_report example_libc example_weather = Run.ok e ∧
      (e.status = EXIT_SUCCESS ↔ valid_weather example_weather) ∧
      (valid_weather example_weather →
        e.out = lines_of example_libc example_weather validation_order ∧
          e.out.length = 5 ∧ e.err = []) ∧
      (¬ valid_weather example_weather →
        e.status = EXIT_FAILURE ∧ ∃ k : Check, e.err = [k.diagnostic]) :=
  main_report_succeeds_iff example_libc example_weather

/-! ## C11: `get_location` on a malformed `loc` -/

/-- C11: whenever the geolocation fetch returns, `get_location` returns the
zero location (latitude 0, longitude 0) and reports a failure in each of
these cases: the fetch gave no buffer; the JSON parse failed; `loc` is a
string from which `"%lf,%lf"` converts fewer than two values (none, or only
the first). The values a partial scan stored never reach the caller. -/
theorem get_location_zero_on_failure (w : World) (fetched : Fetched)
    (hreq : request LOCATION_URL w.location_net = Run.ok fetched) :
    (fetched.ret = none →
      get_location w = Run.ok ⟨location.zero,
        fetched.err ++ [diag "172" "get_location" "failed to get location"]⟩) ∧
    (∀ response text error, fetched.ret = some response → c_string response = Run.ok text →
      w.json_loads text = (none, error) →
      get_location w = Run.ok ⟨location.zero,
        fetched.err ++ [diag "187" "get_location" ("failed to parse json: " ++ error.text)]⟩) ∧
    (∀ response text root error s, fetched.ret = some response →
      c_string response = Run.ok text → w.json_loads text = (some root, error) →
      json_object_get (some root) "loc" = some (Json.string s) →
      (w.libc.scan_lf_lf s).length < 2 →
      get_location w = Run.ok ⟨location.zero,
        fetched.err ++
          [diag "209" "get_location" ("failed to parse location: " ++ error.text)]⟩) := by
  refine ⟨?_, ?_, ?_⟩
  · intro hret
    simp only [get_location, hreq, hret]
  · intro response text error hret htext hjson
    simp only [get_location, hreq, hret, htext, hjson]
  · intro response text root error s hret htext hjson hloc hscan
    simp only [get_location, hreq, hret, htext, hjson, hloc, json_string_value, sscanf_lf_lf]
    cases hs : w.libc.scan_lf_lf s with
    | nil => rfl
    | cons a rest =>
      cases rest with
      | nil => rfl
      | cons b rest =>
        rw [hs] at hscan
        simp only [List.length_cons] at hscan
        omega

set_option maxRecDepth 100000 in
/-- Witness of C11: the geolocation service answers with `loc` equal to
`12.5,abc`, from which only the first number converts. -/
theorem get_location_zero_on_failure_witness :
    get_location (world_with_loc "12.5,abc") =
      Run.ok ⟨⟨⟨0⟩, ⟨0⟩⟩,
        ["error: source/main.c:209: get_location: failed to parse location: \n"]⟩ :=
  (get_location_zero_on_failure (world_with_loc "12.5,abc") _ rfl).2.2 _ _ _ _ "12.5,abc"
    rfl rfl rfl rfl (by decide)

/-! ## C12 - C14: reallocation failure, growth bound, monotone capacity -/

theorem write_response_realloc_refused (ptr : List Byte) (size nmemb : Nat) (r : response)
    (hsize : 1 ≤ size) (hov : overflows size nmemb r = false)
    (hgrow : r.size + size * nmemb ≥ r.capacity) :
    ∃ c, grow_capacity GROW_FUEL (r.size + size * nmemb) r.capacity = some c ∧
      write_response ptr size nmemb r none =
        Run.ok ⟨0, r, [diag "53" "write_response"
          ("failed to reallocate buffer capacity to " ++ toString c)]⟩ := by
  obtain ⟨hmul, hadd, hlt⟩ := size_t_of_accepted size nmemb r hsize hov
  obtain ⟨c, hc⟩ := grow_capacity_terminates (r.size + size * nmemb) r.capacity hlt
  refine ⟨c, hc, ?_⟩
  unfold write_response
  rw [if_neg (by omega), hov, hadd, hmul]
  simp only [Bool.false_eq_true, if_false]
  rw [if_pos hgrow, hc]
  rfl

theorem realloc_some (p : Option Block) (n : Nat) (f : Fresh) :
    ∃ b, realloc p n (some f) = some b ∧ b.alloc = n ∧ b.addr = f.addr := by
  cases p with
  | none => exact ⟨_, rfl, rfl, rfl⟩
  | some b => exact ⟨_, rfl, rfl, rfl⟩

theorem write_response_grown (d : Delivery) (r : response) (f : Fresh) (hd : d.valid)
    (hov : overflows d.size d.nmemb r = false)
    (hgrow : r.size + d.size * d.nmemb ≥ r.capacity) (hheap : d.heap = some f) :
    ∃ c blk, grow_capacity GROW_FUEL (r.size + d.size * d.nmemb) r.capacity = some c ∧
      write_response d.ptr d.size d.nmemb r d.heap =
        Run.ok ⟨d.size * d.nmemb, ⟨some blk, r.size + d.size * d.nmemb, c⟩, []⟩ ∧
      blk.alloc = c ∧ blk.addr = f.addr := by
  obtain ⟨hsize, hlen⟩ := hd
  obtain ⟨hmul, hadd, hlt⟩ := size_t_of_accepted d.size d.nmemb r hsize hov
  have hadd' : add_size_t r.size (d.size * d.nmemb) = r.size + d.size * d.nmemb := by
    have h := hadd
    rw [hmul] at h
    exact h
  obtain ⟨c, hc⟩ := grow_capacity_terminates (r.size + d.size * d.nmemb) r.capacity hlt
  obtain ⟨hc1, _⟩ := grow_capacity_spec _ _ _ _ hc
  obtain ⟨nb, hnb, hnalloc, hnaddr⟩ := realloc_some r.buffer c f
  obtain ⟨blk, hstore, halloc, haddr, _⟩ := store_chunk_spec d.ptr (d.size * d.nmemb)
    { r with buffer := some nb, capacity := c } nb rfl
    (by
      show r.size + d.size * d.nmemb ≤ nb.alloc
      omega) hlen
  refine ⟨c, blk, hc, ?_, by omega, by rw [haddr, hnaddr]⟩
  unfold write_response
  rw [if_neg (by omega), hov, hadd, hmul]
  simp only [Bool.false_eq_true, if_false]
  rw [if_pos hgrow, hc, hheap]
  simp only [hnb]
  rw [hstore]
  simp only [hadd']

theorem grow_capacity_le_double (fuel need capacity c : Nat)
    (h : grow_capacity fuel need capacity = some c) (hle : capacity ≤ need) :
    c ≤ 2 * (need + 1) := by
  induction fuel generalizing capacity with
  | zero => simp [grow_capacity] at h
  | succ fuel ih =>
    simp only [grow_capacity] at h
    split at h
    · rename_i hge
      exact ih _ h hge
    · injection h with h
      subst h
      unfold next_capacity mul_size_t to_size_t
      split
      · omega
      · split
        · unfold SIZE_MAX at *
          omega
        · exact le_trans (Nat.mod_le _ _) (by omega)

theorem write_response_capacity_mono (ptr : List Byte) (size nmemb : Nat) (r : response)
    (heap : Alloc) (w : Written) (h : write_response ptr size nmemb r heap = Run.ok w) :
    r.capacity ≤ w.response.capacity := by
  unfold write_response at h
  split at h
  · cases h
  · split at h
    · injection h with h
      subst h
      exact Nat.le_refl _
    · split at h
      · rename_i hge
        split at h
        · cases h
        · rename_i c hc
          split at h
          · injection h with h
            subst h
            exact Nat.le_refl _
          · obtain ⟨_, _, h3⟩ := store_chunk_size _ _ _ _ h
            have := (grow_capacity_spec _ _ _ _ hc).1
            rw [h3]
            show r.capacity ≤ c
            omega
      · obtain ⟨_, _, h3⟩ := store_chunk_size _ _ _ _ h
        rw [h3]

theorem curl_easy_perform_capacity_mono (ds : List Delivery) (final : Nat) (r : response)
    (tr : Transfer) (h : curl_easy_perform ds final r = Run.ok tr) :
    r.capacity ≤ tr.response.capacity := by
  induction ds generalizing r tr with
  | nil =>
    simp only [curl_easy_perform] at h
    injection h with h
    subst h
    exact Nat.le_refl _
  | cons d ds ih =>
    simp only [curl_easy_perform] at h
    split at h
    · cases h
    · rename_i w hw
      have hw' := write_response_capacity_mono _ _ _ _ _ _ hw
      split at h
      · injection h with h
        subst h
        exact hw'
      · split at h
        · cases h
        · rename_i t ht
          injection h with h
          subst h
          exact le_trans hw' (ih w.response t ht)

/-- C12: when a chunk passes the integrity check, needs the buffer to grow,
and the allocator refuses the `realloc`, `write_response` returns 0 and hands
back the response object exactly as it received it (same block, same
contents, same size and capacity). The transfer then ends with that response,
and the error path of `request` frees the block it holds. -/
theorem write_response_unchanged_on_realloc_failure (ptr : List Byte) (size nmemb : Nat)
    (r : response) (hsize : 1 ≤ size) (hov : overflows size nmemb r = false)
    (hgrow : r.size + size * nmemb ≥ r.capacity) :
    (∃ c : Nat, write_response ptr size nmemb r none =
      Run.ok ⟨0, r, [diag "53" "write_response"
        ("failed to reallocate buffer capacity to " ++ toString c)]⟩) ∧
    (room_for_terminator r → ∀ ds final, ∃ err,
      curl_easy_perform (⟨ptr, size, nmemb, none⟩ :: ds) final r =
        Run.ok ⟨CURLE_WRITE_ERROR, r, err⟩) ∧
    (∀ url t b0 tr, t.init = true → malloc RESPONSE_INITIAL_CAPACITY t.buffer = some b0 →
      curl_easy_perform t.deliveries t.result (initial_response b0) = Run.ok tr →
      tr.status ≠ CURLE_OK →
      ∃ err, request url t = Run.ok ⟨none, free tr.response.buffer, err⟩) := by
  obtain ⟨c, _, hw⟩ := write_response_realloc_refused ptr size nmemb r hsize hov hgrow
  refine ⟨⟨c, hw⟩, ?_, ?_⟩
  · intro hroom ds final
    unfold room_for_terminator at hroom
    refine ⟨[diag "53" "write_response"
      ("failed to reallocate buffer capacity to " ++ toString c)], ?_⟩
    simp only [curl_easy_perform, hw]
    rw [if_pos (by omega)]
  · intro url t b0 tr hinit hm htr hs
    rw [request_of_transfer url t b0 tr hinit hm htr, if_pos hs]
    exact ⟨_, rfl⟩

/-- Witness of C12: a chunk of 1024 bytes on the fresh response, the
allocator refusing to grow the block. -/
theorem write_response_unchanged_on_realloc_failure_witness :
    ∃ c : Nat, write_response (List.replicate 1024 7) 1 1024
        (initial_response ⟨0, 1024, fun _ => 0⟩) none =
      Run.ok ⟨0, initial_response ⟨0, 1024, fun _ => 0⟩,
        [diag "53" "write_response"
          ("failed to reallocate buffer capacity to " ++ toString c)]⟩ :=
  (write_response_unchanged_on_realloc_failure (List.replicate 1024 7) 1 1024
    (initial_response ⟨0, 1024, fun _ => 0⟩) (by decide) (by decide) (by decide)).1

/-- C13: whenever `write_response` grows the buffer for a chunk of
`n = size * nmemb` bytes onto a response of length `size`, the capacity the
loop computes, which is the length of the block allocated and the new
`capacity`, is at most twice the least sufficient capacity
`response.size + n + 1`, saturation at `SIZE_MAX` included. -/
theorem grown_capacity_at_most_double (d : Delivery) (r : response) (f : Fresh)
    (hd : d.valid) (hov : overflows d.size d.nmemb r = false)
    (hgrow : r.size + d.size * d.nmemb ≥ r.capacity) (hheap : d.heap = some f) :
    ∃ w blk, write_response d.ptr d.size d.nmemb r d.heap = Run.ok w ∧
      w.response.buffer = some blk ∧ blk.alloc = w.response.capacity ∧
      r.size + d.size * d.nmemb + 1 ≤ w.response.capacity ∧
      w.response.capacity ≤ 2 * (r.size + d.size * d.nmemb + 1) := by
  obtain ⟨c, blk, hc, hw, halloc, _⟩ := write_response_grown d r f hd hov hgrow hheap
  refine ⟨_, blk, hw, rfl, halloc, ?_, ?_⟩
  · have := (grow_capacity_spec _ _ _ _ hc).1
    show r.size + d.size * d.nmemb + 1 ≤ c
    omega
  · exact grow_capacity_le_double _ _ _ _ hc hgrow

/-- Witness of C13: a chunk of 3000 bytes on the fresh response (capacity
1024 grows to 4096, at most 2 * 3001). -/
theorem grown_capacity_at_most_double_witness :
    ∃ w blk, write_response (List.replicate 3000 7) 1 3000
        (initial_response ⟨0, 1024, fun _ => 0⟩) (some ⟨4096, fun _ => 0⟩) = Run.ok w ∧
      w.response.buffer = some blk ∧ blk.alloc = w.response.capacity ∧
      0 + 1 * 3000 + 1 ≤ w.response.capacity ∧
      w.response.capacity ≤ 2 * (0 + 1 * 3000 + 1) :=
  grown_capacity_at_most_double ⟨List.replicate 3000 7, 1, 3000, some ⟨4096, fun _ => 0⟩⟩
    (initial_response ⟨0, 1024, fun _ => 0⟩) ⟨4096, fun _ => 0⟩
    ⟨by decide, (by rw [List.length_replicate]; rfl)⟩ (by decide) (by decide) rfl

/-- C14: every call of `write_response` that returns, whatever its outcome,
leaves a capacity at least as large as the one it found, and so does every
sequence of deliveries of one transfer; on a well-formed response with valid
chunks the calls and the transfer do return. -/
theorem capacity_never_decreases :
    (∀ (ptr : List Byte) (size nmemb : Nat) (r : response) (heap : Alloc) (w : Written),
      write_response ptr size nmemb r heap = Run.ok w → r.capacity ≤ w.response.capacity) ∧
    (∀ (ds : List Delivery) (final : Nat) (r : response) (tr : Transfer),
      curl_easy_perform ds final r = Run.ok tr → r.capacity ≤ tr.response.capacity) ∧
    (∀ (ds : List Delivery) (final : Nat) (r : response), well_formed r →
      (∀ d ∈ ds, d.valid) →
      ∃ tr, curl_easy_perform ds final r = Run.ok tr ∧ r.capacity ≤ tr.response.capacity) := by
  refine ⟨write_response_capacity_mono, curl_easy_perform_capacity_mono, ?_⟩
  intro ds final r hr hds
  obtain ⟨tr, htr, _⟩ := curl_easy_perform_spec ds final r hr hds
  exact ⟨tr, htr, curl_easy_perform_capacity_mono ds final r tr htr⟩

/-- Witness of C14: one chunk of 3000 bytes delivered to the fresh
response. -/
theorem capacity_never_decreases_witness :
    ∃ tr, curl_easy_perform [⟨List.replicate 3000 7, 1, 3000, some ⟨4096, fun _ => 0⟩⟩]
        CURLE_OK (initial_response ⟨0, 1024, fun _ => 0⟩) = Run.ok tr ∧
      (initial_response ⟨0, 1024, fun _ => 0⟩).capacity ≤ tr.response.capacity :=
  capacity_never_decreases.2.2 [⟨List.replicate 3000 7, 1, 3000, some ⟨4096, fun _ => 0⟩⟩]
    CURLE_OK (initial_response ⟨0, 1024, fun _ => 0⟩)
    (initial_response_well_formed ⟨0, 1024, fun _ => 0⟩ rfl)
    (fun d hd => by
      rw [List.mem_singleton] at hd
      subst hd
      exact ⟨by decide, (by rw [List.length_replicate]; rfl)⟩)

/-! ## C15 - C17: the growth policy, termination, the integrity check -/

theorem next_capacity_eq_doubling_step (capacity : Nat) :
    next_capacity capacity = doubling_step capacity := by
  unfold next_capacity doubling_step mul_size_t to_size_t
  split
  · rfl
  · split
    · rfl
    · unfold SIZE_MAX at *
      omega

theorem grow_capacity_sequence (fuel need capacity c : Nat)
    (h : grow_capacity fuel need capacity = some c) :
    ∃ k, c = doubling_sequence capacity (k + 1) ∧
      ∀ j, 1 ≤ j → j ≤ k → doubling_sequence capacity j ≤ need := by
  induction fuel generalizing capacity with
  | zero => simp [grow_capacity] at h
  | succ fuel ih =>
    simp only [grow_capacity] at h
    split at h
    · rename_i hge
      obtain ⟨k, hk, hj⟩ := ih _ h
      refine ⟨k + 1, ?_, ?_⟩
      · rw [hk, next_capacity_eq_doubling_step]
        rfl
      · intro j h1 h2
        obtain ⟨i, rfl⟩ : ∃ i, j = i + 1 := ⟨j - 1, by omega⟩
        show doubling_sequence (doubling_step capacity) i ≤ need
        rw [← next_capacity_eq_doubling_step]
        cases i with
        | zero => exact hge
        | succ i => exact hj (i + 1) (by omega) (by omega)
    · injection h with h
      subst h
      refine ⟨0, ?_, ?_⟩
      · rw [next_capacity_eq_doubling_step]
        rfl
      · intro j h1 h2
        omega

theorem write_response_in_place (d : Delivery) (r : response) (heap : Alloc)
    (hr : well_formed r) (hd : d.valid) (hov : overflows d.size d.nmemb r = false)
    (hfit : r.size + d.size * d.nmemb < r.capacity) :
    ∃ b b', r.buffer = some b ∧
      write_response d.ptr d.size d.nmemb r heap =
        Run.ok ⟨d.size * d.nmemb, ⟨some b', r.size + d.size * d.nmemb, r.capacity⟩, []⟩ ∧
      b'.addr = b.addr ∧ b'.alloc = b.alloc := by
  obtain ⟨⟨b, hb, halloc⟩, _, _⟩ := hr
  obtain ⟨hsize, hlen⟩ := hd
  obtain ⟨hmul, hadd, hlt⟩ := size_t_of_accepted d.size d.nmemb r hsize hov
  have hadd' : add_size_t r.size (d.size * d.nmemb) = r.size + d.size * d.nmemb := by
    have h := hadd
    rw [hmul] at h
    exact h
  obtain ⟨b', hstore, h2, h3, _⟩ := store_chunk_spec d.ptr (d.size * d.nmemb) r b hb
    (by omega) hlen
  refine ⟨b, b', hb, ?_, h3, h2⟩
  unfold write_response
  rw [if_neg (by omega), hov, hadd, hmul]
  simp only [Bool.false_eq_true, if_false]
  rw [if_neg (by omega), hstore]
  simp only [hadd']

theorem next_capacity_grows (capacity : Nat) (h : capacity < SIZE_MAX) :
    grows_without_wrap capacity (next_capacity capacity) := by
  unfold grows_without_wrap next_capacity mul_size_t to_size_t
  split
  · unfold SIZE_MAX
    omega
  · split
    · omega
    · unfold SIZE_MAX at *
      omega

theorem grow_trace_spec (fuel need capacity c : Nat) (hneed : need < SIZE_MAX)
    (hle : capacity ≤ need) (h : grow_capacity fuel need capacity = some c) :
    ∃ init, grow_trace fuel need capacity = init ++ [c] ∧
      List.Chain grows_without_wrap capacity (init ++ [c]) ∧ ∀ x ∈ init, x ≤ need := by
  induction fuel generalizing capacity with
  | zero => simp [grow_capacity] at h
  | succ fuel ih =>
    have hstep := next_capacity_grows capacity (by omega)
    simp only [grow_capacity] at h
    simp only [grow_trace]
    split at h
    · rename_i hge
      obtain ⟨init, h1, h2, h3⟩ := ih _ hge h
      refine ⟨next_capacity capacity :: init, ?_, ?_, ?_⟩
      · rw [if_pos hge, h1]
        rfl
      · exact List.Chain.cons hstep h2
      · intro x hx
        rcases List.mem_cons.mp hx with rfl | hx'
        · exact hge
        · exact h3 x hx'
    · rename_i hlt
      injection h with h
      subst h
      refine ⟨[], ?_, ?_, ?_⟩
      · rw [if_neg hlt]
        rfl
      · exact List.Chain.cons hstep List.Chain.nil
      · intro x hx
        cases hx

theorem grow_capacity_more_fuel (fuel need capacity c m : Nat)
    (h : grow_capacity fuel need capacity = some c) :
    grow_capacity (fuel + m) need capacity = some c := by
  induction fuel generalizing capacity with
  | zero => simp [grow_capacity] at h
  | succ fuel ih =>
    have hf : fuel + 1 + m = (fuel + m) + 1 := by omega
    rw [hf]
    simp only [grow_capacity] at h ⊢
    split
    · rename_i hge
      rw [if_pos hge] at h
      exact ih _ h
    · rename_i hlt
      rw [if_neg hlt] at h
      exact h

theorem store_chunk_no_loop_fault (ptr : List Byte) (n : Nat) (r : response) :
    store_chunk ptr n r ≠ Run.fault Fault.no_termination := by
  unfold store_chunk memcpy
  intro h
  split at h
  · rename_i f hf
    split at hf
    · injection hf with hf
      subst hf
      cases h
    · split at hf
      · cases hf
      · injection hf with hf
        subst hf
        cases h
  · cases h

theorem write_response_no_growth (ptr : List Byte) (size nmemb : Nat) (r : response)
    (heap : Alloc) (hsize : 1 ≤ size) (hov : overflows size nmemb r = false)
    (hfit : r.size + size * nmemb < r.capacity) :
    write_response ptr size nmemb r heap = store_chunk ptr (mul_size_t nmemb size) r := by
  obtain ⟨_, hadd, _⟩ := size_t_of_accepted size nmemb r hsize hov
  unfold write_response
  rw [if_neg (by omega), hov, hadd]
  simp only [Bool.false_eq_true, if_false]
  rw [if_neg (by omega)]

theorem store_chunk_keeps_block (ptr : List Byte) (n : Nat) (r : response) (w : Written)
    (h : store_chunk ptr n r = Run.ok w) :
    w.response.capacity = r.capacity ∧
      ∃ b b', r.buffer = some b ∧ w.response.buffer = some b' ∧
        b'.addr = b.addr ∧ b'.alloc = b.alloc := by
  unfold store_chunk memcpy at h
  cases hb : r.buffer with
  | none =>
    rw [hb] at h
    cases h
  | some b =>
    rw [hb] at h
    simp only at h
    split at h
    · cases h
    · rename_i b' hb'
      split at hb'
      · injection hb' with hb'
        subst hb'
        injection h with h
        subst h
        exact ⟨rfl, b, _, rfl, rfl, rfl, rfl⟩
      · cases hb'

/-- C15: for a valid chunk of `n = size * nmemb` bytes that passes the
integrity check: if `response.size + n < capacity`, the allocator plays no
part in the call, and the call, which returns on every well-formed response,
leaves the capacity unchanged and the block at its address with its length
(nothing is reallocated); otherwise, the reallocation succeeding, the new
capacity is the first term strictly greater than `response.size + n` of the
sequence obtained from the old capacity by repeated doubling, where 0 steps
to 1 and a capacity above `SIZE_MAX / 2` steps to `SIZE_MAX`. -/
theorem write_response_capacity_policy (d : Delivery) (r : response) (hd : d.valid)
    (hov : overflows d.size d.nmemb r = false) :
    (r.size + d.size * d.nmemb < r.capacity →
      (∀ heap, write_response d.ptr d.size d.nmemb r heap =
        write_response d.ptr d.size d.nmemb r d.heap) ∧
      (∀ w, write_response d.ptr d.size d.nmemb r d.heap = Run.ok w →
        w.response.capacity = r.capacity ∧
        ∃ b b', r.buffer = some b ∧ w.response.buffer = some b' ∧
          b'.addr = b.addr ∧ b'.alloc = b.alloc) ∧
      (well_formed r → ∃ w, write_response d.ptr d.size d.nmemb r d.heap = Run.ok w)) ∧
    (r.size + d.size * d.nmemb ≥ r.capacity → ∀ f, d.heap = some f →
      ∃ w k, write_response d.ptr d.size d.nmemb r d.heap = Run.ok w ∧
        w.response.capacity = doubling_sequence r.capacity (k + 1) ∧
        r.size + d.size * d.nmemb < doubling_sequence r.capacity (k + 1) ∧
        ∀ j, j ≤ k → doubling_sequence r.capacity j ≤ r.size + d.size * d.nmemb) := by
  constructor
  · intro hfit
    have heq := fun heap => write_response_no_growth d.ptr d.size d.nmemb r heap hd.1 hov hfit
    refine ⟨fun heap => by rw [heq heap, heq d.heap], ?_, ?_⟩
    · intro w hw
      rw [heq d.heap] at hw
      exact store_chunk_keeps_block _ _ _ _ hw
    · intro hr
      obtain ⟨_, _, _, hw, _, _⟩ := write_response_in_place d r d.heap hr hd hov hfit
      exact ⟨_, hw⟩
  · intro hgrow f hf
    obtain ⟨c, blk, hc, hw, _, _⟩ := write_response_grown d r f hd hov hgrow hf
    obtain ⟨k, hk, hj⟩ := grow_capacity_sequence _ _ _ _ hc
    have hlt := (grow_capacity_spec _ _ _ _ hc).1
    refine ⟨_, k, hw, hk, by rw [← hk]; exact hlt, ?_⟩
    intro j hjk
    cases j with
    | zero => exact hgrow
    | succ j => exact hj (j + 1) (by omega) hjk

/-- Witness of C15: a chunk of 5 bytes on a response holding 2 bytes in a
block of 4: the capacity grows to 8, the first term above 7 of 4, 8, 16,
.... -/
theorem write_response_capacity_policy_witness :
    ∃ w k, write_response [1, 2, 3, 4, 5] 1 5 ⟨some ⟨0, 4, fun _ => 0⟩, 2, 4⟩
        (some ⟨64, fun _ => 0⟩) = Run.ok w ∧
      w.response.capacity = doubling_sequence 4 (k + 1) ∧
      2 + 1 * 5 < doubling_sequence 4 (k + 1) ∧
      ∀ j, j ≤ k → doubling_sequence 4 j ≤ 2 + 1 * 5 :=
  (write_response_capacity_policy ⟨[1, 2, 3, 4, 5], 1, 5, some ⟨64, fun _ => 0⟩⟩
    ⟨some ⟨0, 4, fun _ => 0⟩, 2, 4⟩ ⟨by decide, rfl⟩ (by decide)).2 (by decide)
    ⟨64, fun _ => 0⟩ rfl

/-- C16: for a chunk that passes the integrity check, the doubling loop of
`write_response` terminates: the call never ends for want of iterations, and
when the loop runs it yields its capacity `c` within the iterations granted,
and with any larger number of them. No value wraps: every execution of the
body takes `capacity` to a strictly larger value that is at most `SIZE_MAX`
(by 0 to 1, by an exact doubling, or by the clamp to `SIZE_MAX`); every value
before the last is at most `response.size + n`, hence below `SIZE_MAX`, and
the loop exits at the first value above `response.size + n`, which exists
because `response.size + n < SIZE_MAX`. -/
theorem doubling_loop_terminates (size nmemb : Nat) (r : response) (hsize : 1 ≤ size)
    (hov : overflows size nmemb r = false) :
    (∀ ptr heap, write_response ptr size nmemb r heap ≠ Run.fault Fault.no_termination) ∧
    r.size + size * nmemb < SIZE_MAX ∧
    (r.size + size * nmemb ≥ r.capacity →
      ∃ c init,
        (∀ m, grow_capacity (GROW_FUEL + m) (r.size + size * nmemb) r.capacity = some c) ∧
        grow_trace GROW_FUEL (r.size + size * nmemb) r.capacity = init ++ [c] ∧
        List.Chain grows_without_wrap r.capacity (init ++ [c]) ∧
        (∀ x ∈ init, x ≤ r.size + size * nmemb) ∧
        r.size + size * nmemb < c ∧ c ≤ SIZE_MAX) := by
  obtain ⟨hmul, hadd, hlt⟩ := size_t_of_accepted size nmemb r hsize hov
  obtain ⟨c, hc⟩ := grow_capacity_terminates (r.size + size * nmemb) r.capacity hlt
  refine ⟨?_, hlt, ?_⟩
  · intro ptr heap
    unfold write_response
    rw [if_neg (by omega), hov, hadd, hmul]
    simp only [Bool.false_eq_true, if_false]
    split
    · rw [hc]
      simp only
      split
      · intro h
        cases h
      · exact store_chunk_no_loop_fault _ _ _
    · exact store_chunk_no_loop_fault _ _ _
  · intro hgrow
    obtain ⟨init, h1, h2, h3⟩ := grow_trace_spec _ _ _ _ hlt hgrow hc
    obtain ⟨h4, h5⟩ := grow_capacity_spec _ _ _ _ hc
    exact ⟨c, init, fun m => grow_capacity_more_fuel _ _ _ _ m hc, h1, h2, h3, h4, h5⟩

/-- Witness of C16: a chunk of 3000 bytes on the fresh response. -/
theorem doubling_loop_terminates_witness :
    (∀ ptr heap, write_response ptr 1 3000 (initial_response ⟨0, 1024, fun _ => 0⟩) heap ≠
      Run.fault Fault.no_termination) ∧
    0 + 1 * 3000 < SIZE_MAX ∧
    (0 + 1 * 3000 ≥ 1024 →
      ∃ c init,
        (∀ m, grow_capacity (GROW_FUEL + m) (0 + 1 * 3000) 1024 = some c) ∧
        grow_trace GROW_FUEL (0 + 1 * 3000) 1024 = init ++ [c] ∧
        List.Chain grows_without_wrap 1024 (init ++ [c]) ∧
        (∀ x ∈ init, x ≤ 0 + 1 * 3000) ∧
        0 + 1 * 3000 < c ∧ c ≤ SIZE_MAX) :=
  doubling_loop_terminates 1 3000 (initial_response ⟨0, 1024, fun _ => 0⟩) (by decide)
    (by decide)

/-- C17: with element size at least 1, `write_response` passes the integrity
check of line 23 exactly when, over unbounded integers,
`nmemb < SIZE_MAX / size` (rounded down) and
`response.size + size * nmemb < SIZE_MAX`. For a chunk that passes,
`response.size + size * nmemb + 1 <= SIZE_MAX` and none of the machine
products, sums and differences of the function wraps; a chunk that does not
pass is rejected. The check also rejects chunks whose arithmetic would not
overflow, such as `size = 1`, `nmemb = SIZE_MAX` on an empty response. -/
theorem integrity_check_iff (size nmemb : Nat) (r : response) (hsize : 1 ≤ size) :
    (overflows size nmemb r = false ↔
      nmemb < SIZE_MAX / size ∧ r.size + size * nmemb < SIZE_MAX) ∧
    (overflows size nmemb r = false →
      r.size + size * nmemb + 1 ≤ SIZE_MAX ∧
      mul_size_t size nmemb = size * nmemb ∧ mul_size_t nmemb size = nmemb * size ∧
      sub_size_t SIZE_MAX (mul_size_t size nmemb) = SIZE_MAX - size * nmemb ∧
      add_size_t r.size (mul_size_t nmemb size) = r.size + nmemb * size) ∧
    (overflows size nmemb r = true →
      ∀ ptr heap, write_response ptr size nmemb r heap =
        Run.ok ⟨0, r, [diag "28" "write_response" "buffer capacity overflowed"]⟩) ∧
    (∀ buffer capacity,
      overflows 1 SIZE_MAX ⟨buffer, 0, capacity⟩ = true ∧
      1 * SIZE_MAX ≤ SIZE_MAX ∧ 0 + 1 * SIZE_MAX ≤ SIZE_MAX) := by
  refine ⟨overflows_eq_false_iff size nmemb r hsize, ?_, ?_, ?_⟩
  · intro hov
    obtain ⟨hmul, hadd, hlt⟩ := size_t_of_accepted size nmemb r hsize hov
    have hc : nmemb * size = size * nmemb := Nat.mul_comm _ _
    have hm : mul_size_t size nmemb = size * nmemb := by
      unfold mul_size_t at hmul ⊢
      rw [hc] at hmul
      exact hmul
    refine ⟨by omega, hm, by rw [hmul, hc], ?_, by rw [hadd, hc]⟩
    · rw [hm]
      unfold sub_size_t to_size_t
      unfold SIZE_MAX at hlt ⊢
      omega
  · intro hov ptr heap
    exact write_response_rejected ptr size nmemb r heap hsize hov
  · intro buffer capacity
    refine ⟨?_, by decide, by decide⟩
    unfold overflows
    simp

/-- Witness of C17: five elements of one byte on the fresh response pass the
check. -/
theorem integrity_check_iff_witness :
    overflows 1 5 (initial_response ⟨0, 1024, fun _ => 0⟩) = false ∧
    (5 < SIZE_MAX / 1 ∧ 0 + 1 * 5 < SIZE_MAX) :=
  ⟨((integrity_check_iff 1 5 (initial_response ⟨0, 1024, fun _ => 0⟩) (by decide)).1).mpr
      ⟨by decide, by decide⟩,
    ((integrity_check_iff 1 5 (initial_response ⟨0, 1024, fun _ => 0⟩) (by decide)).1).mp
      (by decide)⟩

end Weather
